import Mathlib

/-!
Verification of the circle layout engine in `circle_plotter.py`.

The Python source is shallowly embedded: numbers are rationals, pandas
DataFrames are lists of rows with a column-name header, the lazy generator
`circle_generator` becomes a value (`Gen`) whose forcing (`Gen.run`) returns
the list of yielded events together with the exception (if any) that ends the
iteration, and Python dict mutation is modelled with an explicit heap of
dictionary references.

External collaborators are modelled after their documented behaviour as used
by the source: `matplotlib.colors.is_color_like` is an opaque boolean
predicate passed as a parameter; `DataFrame.groupby(key, sort=False)` groups
by first occurrence keeping row order; `DataFrame.sort_values(by, ascending=False)`
is a stable descending lexicographic sort (the interface contract assumed by
the engine).
-/

namespace CirclePlot

/-- The kinds of Python exception raised by the validators in
`circle_plotter.py`. -/
inductive Err where
  | typeError
  | valueError
  | keyError
deriving DecidableEq

/-- A Python value passed where a number is expected: either an `int`/`float`
(`num`) or some non-numeric object (`other`), which fails the
`isinstance(value, (float, int))` check. -/
inductive PyNum where
  | num (q : ℚ)
  | other
deriving DecidableEq

/-- The `PlotAttributes.alpha` setter.  The Python guard `0 > value <= 1` is a
chained comparison: it means `0 > value and value <= 1`, so `ValueError` is
raised exactly for negative numeric values. -/
def set_alpha : PyNum → Except Err ℚ
  | .other => .error .typeError
  | .num v => if 0 > v ∧ v ≤ 1 then .error .valueError else .ok v

/-- The `PlotAttributes.color` setter; `is_color_like` is matplotlib's
predicate, taken as a parameter. -/
def set_color {C : Type} (is_color_like : C → Bool) (c : C) : Except Err C :=
  if ¬ is_color_like c then .error .valueError else .ok c

/-- A validated `PlotAttributes` object (`color`, `alpha`, `label`). -/
structure PlotAttributes (C L : Type) where
  color : C
  alpha : ℚ
  label : L
deriving DecidableEq

/-- `PlotAttributes.__init__`: runs the `color` setter, then the `alpha`
setter; `label` is stored unvalidated. -/
def PlotAttributes.make {C L : Type} (is_color_like : C → Bool)
    (color : C) (alpha : PyNum) (label : L) : Except Err (PlotAttributes C L) := do
  let c ← set_color is_color_like color
  let a ← set_alpha alpha
  pure ⟨c, a, label⟩

/-- A value stored in the `plot_attributes` dict:
* `triple c a l` — a `list`/`tuple` of length exactly 3 holding
  `(color, alpha, label)`;
* `wrongLength` — a `list`/`tuple` whose length is not 3;
* `attrObj pa` — a `PlotAttributes` instance (what the setter writes back);
* `nonSeq` — any object that is neither a `list` nor a `tuple`. -/
inductive AttrVal (C L : Type) where
  | triple (color : C) (alpha : PyNum) (label : L)
  | wrongLength
  | attrObj (pa : PlotAttributes C L)
  | nonSeq
deriving DecidableEq

/-- The body of the `plot_attributes` setter loop for a single dict entry:
`isinstance(attributes, (list, tuple))` check, length-3 check, then
`PlotAttributes(*attributes)`. -/
def processAttr {C L : Type} (is_color_like : C → Bool) :
    AttrVal C L → Except Err (PlotAttributes C L)
  | .nonSeq => .error .typeError
  | .attrObj _ => .error .typeError
  | .wrongLength => .error .valueError
  | .triple c a l => PlotAttributes.make is_color_like c a l

/-- The `plot_attributes` setter loop over the dict's entries, mutating the
dict as it goes: each successfully processed entry is overwritten with the
constructed `PlotAttributes` object (`value[group] = PlotAttributes(*attributes)`);
on the first failing entry the loop raises, leaving that entry and all later
ones untouched.  Returns the dict as mutated plus the raised exception, if
any. -/
def plotAttrLoop {G C L : Type} (is_color_like : C → Bool) :
    List (G × AttrVal C L) → List (G × AttrVal C L) × Option Err
  | [] => ([], none)
  | (g, v) :: rest =>
    match processAttr is_color_like v with
    | .error e => ((g, v) :: rest, some e)
    | .ok pa =>
      let r := plotAttrLoop is_color_like rest
      ((g, .attrObj pa) :: r.1, r.2)

/-- A heap of Python dict objects, addressed by reference id. -/
def Heap (G C L : Type) : Type := ℕ → List (G × AttrVal C L)

/-- The part of a `CirclePlotter`'s state touched by the `plot_attributes`
setter: which dict object the `_plot_attributes` field refers to. -/
structure PlotterState where
  plot_attributes_ref : Option ℕ
deriving DecidableEq

/-- The `plot_attributes` setter called with (a reference to) a dict: the
loop mutates the dict object in place in the heap; only if no entry raised is
`self._plot_attributes` assigned — and it is assigned the very same reference
the caller passed in, not a copy. -/
def set_plot_attributes {G C L : Type} (is_color_like : C → Bool)
    (h : Heap G C L) (r : ℕ) (p : PlotterState) :
    Heap G C L × PlotterState × Option Err :=
  let res := plotAttrLoop is_color_like (h r)
  let h2 : Heap G C L := Function.update h r res.1
  match res.2 with
  | some e => (h2, p, some e)
  | none => (h2, { plot_attributes_ref := some r }, none)

/-- The validated constructor arguments of `CirclePlotter`
(`plot_attributes` is kept separately). -/
structure Config where
  radius : ℚ
  x_init : ℚ
  y_init : ℚ
  circles_per_column : ℕ
deriving DecidableEq

/-- The `pad` property: cached as `2 * radius`, and the cache is invalidated
whenever `radius` is assigned, so the observable value is always
`2 * radius`. -/
def Config.pad (c : Config) : ℚ := 2 * c.radius

/-- `circle_pad = 3 * self.radius` in `circle_generator`. -/
def Config.circle_pad (c : Config) : ℚ := 3 * c.radius

/-- `group_pad = 2 * self.radius + self.pad` in `circle_generator`. -/
def Config.group_pad (c : Config) : ℚ := 2 * c.radius + c.pad

/-- A valid configuration: the conditions enforced by the `radius`, `x_init`
and `y_init` setters, together with the data-model requirement that
`circles_per_column` is a positive integer. -/
def Config.Valid (c : Config) : Prop :=
  0 < c.radius ∧ 0 ≤ c.x_init ∧ 0 ≤ c.y_init ∧ 0 < c.circles_per_column

/-- One DataFrame row: the cell values, aligned with the column header. -/
abbrev Row (V : Type) : Type := List V

/-- A pandas DataFrame: a column header and a list of rows. -/
structure DataFrame (V : Type) where
  cols : List String
  rows : List (Row V)

/-- The `input_data` argument: either a DataFrame or some other object
(failing the `isinstance(input_data, pd.DataFrame)` check). -/
inductive Input (V : Type) where
  | df (d : DataFrame V)
  | notDF

/-- The cell of row `r` in column `c`. -/
def cellOf {V : Type} [Inhabited V] (cols : List String) (c : String) (r : Row V) : V :=
  List.getD r (cols.indexOf c) default

/-- The ordering key of a row: its cells in the `order` columns. -/
def rowKey {V : Type} [Inhabited V] (cols order : List String) (r : Row V) : List V :=
  order.map (fun c => cellOf cols c r)

/-- Lexicographic comparison of two key tuples (ascending). -/
def lexLe {V : Type} [LinearOrder V] : List V → List V → Bool
  | [], _ => true
  | _ :: _, [] => false
  | a :: as, b :: bs => if a < b then true else if b < a then false else lexLe as bs

/-- The comparison used by `sort_values(by=order, ascending=False)`: row `a`
precedes row `b` when the key of `a` is lexicographically at least the key of
`b`. -/
def rowGe {V : Type} [LinearOrder V] [Inhabited V] (cols order : List String)
    (a b : Row V) : Prop :=
  lexLe (rowKey cols order b) (rowKey cols order a) = true

instance {V : Type} [LinearOrder V] [Inhabited V] (cols order : List String) :
    DecidableRel (rowGe (V := V) cols order) :=
  fun _ _ => instDecidableEqBool _ _

/-- Models `data.sort_values(by=order, ascending=False)`: a stable sort,
descending lexicographically in the `order` columns (the tabular-interface
contract assumed by the engine: ties keep their original relative order).
Realized by insertion sort, which is stable; stability makes the result
independent of the sorting algorithm. -/
def sort_values {V : Type} [LinearOrder V] [Inhabited V] (cols order : List String)
    (rows : List (Row V)) : List (Row V) :=
  List.insertionSort (rowGe cols order) rows

/-- The distinct values of a list, keeping first occurrences in order
(`seen` holds the values already emitted). -/
def firstOccurAux {V : Type} [DecidableEq V] (seen : List V) : List V → List V
  | [] => []
  | a :: l => if a ∈ seen then firstOccurAux seen l else a :: firstOccurAux (a :: seen) l

/-- The distinct values of a list, keeping first occurrences in order. -/
def firstOccur {V : Type} [DecidableEq V] (l : List V) : List V :=
  firstOccurAux [] l

/-- The group key of a row: its cell in the grouping column. -/
def DataFrame.gkey {V : Type} [Inhabited V] (d : DataFrame V) (gcol : String)
    (r : Row V) : V :=
  cellOf d.cols gcol r

/-- Models `input_data.groupby(gcol, sort=False)`: group keys in
first-occurrence order, each group holding its rows in original order. -/
def DataFrame.groupby {V : Type} [DecidableEq V] [Inhabited V] (d : DataFrame V)
    (gcol : String) : List (V × List (Row V)) :=
  (firstOccur (d.rows.map (d.gkey gcol))).map
    (fun g => (g, d.rows.filter (fun r => d.gkey gcol r = g)))

/-- A yielded `CircleAttributes` record. -/
structure CircleAttributes (V : Type) where
  group : V
  count : ℕ
  row : Row V
  x : ℚ
  y : ℚ
deriving DecidableEq

/-- A yielded `GroupLabel` record. -/
structure GroupLabel (V L : Type) where
  group_label : V
  group_sublabel : L
  group_count : ℕ
  label_x : ℚ
  label_y : ℚ
  gridline_x : ℚ
deriving DecidableEq

/-- One element of the sequence yielded by `circle_generator`. -/
inductive Event (V L : Type) where
  | circle (c : CircleAttributes V)
  | label (gl : GroupLabel V L)
deriving DecidableEq

/-- One step of the placement loop body for the record at per-group index `i`,
given the current pen position `(x, y)`: column-wrap check, group-margin vs
column-margin advance, and `y` reset or `y` advance. -/
def columnStep (cfg : Config) (i : ℕ) (x y : ℚ) : ℚ × ℚ :=
  if i % cfg.circles_per_column = 0 then
    (if i = 0 then x + cfg.group_pad else x + cfg.circle_pad, cfg.y_init)
  else (x, y + cfg.circle_pad)

/-- The `(x, y)` positions assigned to the records of one group, in sorted
order, starting at per-group index `i` with pen position `(x, y)`. -/
def placePositions {V : Type} (cfg : Config) :
    List (Row V) → ℕ → ℚ → ℚ → List (ℚ × ℚ)
  | [], _, _, _ => []
  | _ :: rs, i, x, y =>
    let p := columnStep cfg i x y
    p :: placePositions cfg rs (i + 1) p.1 p.2

/-- The `CircleAttributes` records of one group: one per (row, position)
pair. -/
def circleList {V : Type} (g : V) (n : ℕ) (rps : List (Row V × (ℚ × ℚ))) :
    List (CircleAttributes V) :=
  rps.map (fun rp => ⟨g, n, rp.1, rp.2.1, rp.2.2⟩)

/-- The `GroupLabel` record emitted after a group's last circle, computed from
the group's point history — the set of distinct x values placed (the y set is
collected by the source but never read).  `label_x` is
`sum(history.x)/len(history.x)`, `label_y` is
`y_init + circle_pad * circles_per_column`, and `gridline_x` is
`max(history.x) + group_pad`. -/
def labelOf {V L : Type} (cfg : Config) (sublabel : L) (g : V) (n : ℕ)
    (ps : List (ℚ × ℚ)) : GroupLabel V L :=
  let hx : Finset ℚ := (ps.map Prod.fst).toFinset
  { group_label := g
    group_sublabel := sublabel
    group_count := n
    label_x := hx.sum id / (hx.card : ℚ)
    label_y := cfg.y_init + cfg.circle_pad * (cfg.circles_per_column : ℚ)
    gridline_x := hx.max.unbot' 0 + cfg.group_pad }

/-- `self.plot_attributes[group]` as a dict lookup: `none` means a `KeyError`
would be raised. -/
def lookupAttr {V C L : Type} [DecidableEq V] (attrs : List (V × PlotAttributes C L))
    (g : V) : Option (PlotAttributes C L) :=
  (attrs.find? (fun e => e.1 = g)).map Prod.snd

/-- The `if x > self.x_init: x += group_pad` shift at the top of the group
loop. -/
def xShift (cfg : Config) (x : ℚ) : ℚ :=
  if cfg.x_init < x then x + cfg.group_pad else x

/-- The positions assigned to one group's records, after the group's rows are
sorted descending, starting from pen position `(x1, y_init)`. -/
def groupPs {V : Type} [LinearOrder V] [Inhabited V] (cfg : Config)
    (cols order : List String) (data : List (Row V)) (x1 : ℚ) : List (ℚ × ℚ) :=
  placePositions cfg (sort_values cols order data) 0 x1 cfg.y_init

/-- The `CircleAttributes` events yielded for one group. -/
def groupCircles {V L : Type} [LinearOrder V] [Inhabited V] (cfg : Config)
    (cols order : List String) (g : V) (data : List (Row V)) (x1 : ℚ) :
    List (Event V L) :=
  (circleList g data.length
    ((sort_values cols order data).zip (groupPs cfg cols order data x1))).map
    Event.circle

/-- The value of the pen `x` after one group's records are placed. -/
def groupEndX {V : Type} [LinearOrder V] [Inhabited V] (cfg : Config)
    (cols order : List String) (data : List (Row V)) (x1 : ℚ) : ℚ :=
  (((groupPs cfg cols order data x1).map Prod.fst).getLast?).getD x1

/-- The group loop of `circle_generator`, over the remaining groups, with
current pen `x`.  For each group: shift `x` by `group_pad` when `x > x_init`
(`xShift`), sort the group's rows descending, place them
(`groupPs`), yield one `CircleAttributes` per row (`groupCircles`), and after
the last row yield the `GroupLabel` — or stop with a `KeyError` when the
group is missing from `plot_attributes`, which the source hits while building
the `GroupLabel`, after the group's last circle was already yielded.  Returns
the yielded events and the terminating exception, if any.  (A group with no
rows — impossible under `groupby` — skips its body entirely.) -/
def runGroups {V C L : Type} [LinearOrder V] [DecidableEq V] [Inhabited V]
    (cfg : Config) (attrs : List (V × PlotAttributes C L)) (cols order : List String) :
    List (V × List (Row V)) → ℚ → List (Event V L) × Option Err
  | [], _ => ([], none)
  | (_, []) :: rest, x => runGroups cfg attrs cols order rest (xShift cfg x)
  | (g, r0 :: t0) :: rest, x =>
    match lookupAttr attrs g with
    | none => (groupCircles cfg cols order g (r0 :: t0) (xShift cfg x), some .keyError)
    | some pa =>
      let res := runGroups cfg attrs cols order rest
        (groupEndX cfg cols order (r0 :: t0) (xShift cfg x))
      (groupCircles cfg cols order g (r0 :: t0) (xShift cfg x)
        ++ Event.label (labelOf cfg pa.label g (r0 :: t0).length
            (groupPs cfg cols order (r0 :: t0) (xShift cfg x))) :: res.1,
       res.2)

/-- `_validate_input_data`: `TypeError` when `input_data` is not a DataFrame,
`ValueError` when the group column or any order column is missing. -/
def validateInput {V : Type} (input : Input V) (gcol : String)
    (order : List String) : Option Err :=
  match input with
  | .notDF => some .typeError
  | .df d =>
    if ¬ gcol ∈ d.cols then some .valueError
    else if order.any (fun c => ¬ c ∈ d.cols) then some .valueError
    else none

/-- A generator object: calling `circle_generator` merely packages its
arguments; none of the body (validation included) runs at call time. -/
structure Gen (V C L : Type) where
  cfg : Config
  attrs : List (V × PlotAttributes C L)
  input : Input V
  group : String
  order : List String

/-- Calling `circle_generator(input_data, group, order)` on a plotter with
configuration `cfg` and validated `plot_attributes` `attrs`: returns a
generator object for every argument, valid or not. -/
def circle_generator {V C L : Type} (cfg : Config)
    (attrs : List (V × PlotAttributes C L)) (input : Input V)
    (group : String) (order : List String) : Gen V C L :=
  ⟨cfg, attrs, input, group, order⟩

/-- Exhausting the generator: the generator body validates its input first
(raising before anything is yielded), then runs the group loop starting at
`x = x_init`. -/
def Gen.run {V C L : Type} [LinearOrder V] [DecidableEq V] [Inhabited V]
    (gen : Gen V C L) : List (Event V L) × Option Err :=
  match validateInput gen.input gen.group gen.order with
  | some e => ([], some e)
  | none =>
    match gen.input with
    | .df d => runGroups gen.cfg gen.attrs d.cols gen.order
        (d.groupby gen.group) gen.cfg.x_init
    | .notDF => ([], some .typeError)

/-- Observation: the `CircleAttributes` records of an event sequence, in
order. -/
def circleEvents {V L : Type} (evs : List (Event V L)) : List (CircleAttributes V) :=
  evs.filterMap (fun e => match e with
    | .circle c => some c
    | .label _ => none)

/-- Observation: the `CircleAttributes` records of an event sequence that
belong to group `g`, in order. -/
def circlesOfGroup {V L : Type} [DecidableEq V] (evs : List (Event V L)) (g : V) :
    List (CircleAttributes V) :=
  evs.filterMap (fun e => match e with
    | .circle c => if c.group = g then some c else none
    | .label _ => none)

/-- Observation: the `GroupLabel` records of an event sequence that belong to
group `g`, in order. -/
def labelsOfGroup {V L : Type} [DecidableEq V] (evs : List (Event V L)) (g : V) :
    List (GroupLabel V L) :=
  evs.filterMap (fun e => match e with
    | .label gl => if gl.group_label = g then some gl else none
    | .circle _ => none)


variable {V C L : Type}

theorem lexLe_refl [LinearOrder V] : ∀ l : List V, lexLe l l = true
  | [] => rfl
  | a :: l => by simp [lexLe, lt_irrefl, lexLe_refl l]

theorem lexLe_total [LinearOrder V] :
    ∀ a b : List V, lexLe a b = true ∨ lexLe b a = true
  | [], _ => Or.inl rfl
  | _ :: _, [] => Or.inr rfl
  | a :: as, b :: bs => by
    rcases lt_trichotomy a b with h | h | h
    · exact Or.inl (by simp [lexLe, h])
    · subst h
      rcases lexLe_total as bs with h2 | h2
      · exact Or.inl (by simp [lexLe, lt_irrefl, h2])
      · exact Or.inr (by simp [lexLe, lt_irrefl, h2])
    · exact Or.inr (by simp [lexLe, h])

theorem lexLe_trans [LinearOrder V] :
    ∀ a b c : List V, lexLe a b = true → lexLe b c = true → lexLe a c = true
  | [], _, _, _, _ => rfl
  | _ :: _, [], _, hab, _ => by simp [lexLe] at hab
  | _ :: _, _ :: _, [], _, hbc => by simp [lexLe] at hbc
  | a :: as, b :: bs, c :: cs, hab, hbc => by
    simp only [lexLe] at hab hbc ⊢
    rcases lt_trichotomy a b with h1 | h1 | h1
    · rcases lt_trichotomy b c with h2 | h2 | h2
      · simp [h1.trans h2]
      · subst h2; simp [h1]
      · simp [h2, not_lt.2 h2.le] at hbc
    · subst h1
      rcases lt_trichotomy a c with h2 | h2 | h2
      · simp [h2]
      · subst h2
        simp [lt_irrefl] at hab hbc ⊢
        exact lexLe_trans _ _ _ hab hbc
      · simp [h2, not_lt.2 h2.le] at hbc
    · simp [h1, not_lt.2 h1.le] at hab

instance [LinearOrder V] [Inhabited V] (cols order : List String) :
    IsTotal (Row V) (rowGe (V := V) cols order) :=
  ⟨fun _ _ => lexLe_total _ _⟩

instance [LinearOrder V] [Inhabited V] (cols order : List String) :
    IsTrans (Row V) (rowGe (V := V) cols order) :=
  ⟨fun _ _ _ hab hbc => lexLe_trans _ _ _ hbc hab⟩

theorem rowGe_refl [LinearOrder V] [Inhabited V] (cols order : List String)
    (a : Row V) : rowGe cols order a a :=
  lexLe_refl _

theorem sort_values_perm [LinearOrder V] [Inhabited V] (cols order : List String)
    (rows : List (Row V)) : List.Perm (sort_values cols order rows) rows :=
  List.perm_insertionSort _ _

theorem sort_values_length [LinearOrder V] [Inhabited V] (cols order : List String)
    (rows : List (Row V)) : (sort_values cols order rows).length = rows.length :=
  (sort_values_perm cols order rows).length_eq

theorem sort_values_sorted [LinearOrder V] [Inhabited V] (cols order : List String)
    (rows : List (Row V)) :
    (sort_values cols order rows).Pairwise (rowGe cols order) :=
  List.sorted_insertionSort _ _

theorem sort_values_stable [LinearOrder V] [Inhabited V] (cols order : List String)
    (rows : List (Row V)) (k : List V) :
    (sort_values cols order rows).filter (fun r => rowKey cols order r = k)
      = rows.filter (fun r => rowKey cols order r = k) := by
  set p : Row V → Bool := fun r => decide (rowKey cols order r = k) with hp
  have hc : (rows.filter p).Pairwise (rowGe cols order) := by
    apply List.pairwise_of_forall_mem_list
    intro a ha b hb
    have ha2 : rowKey cols order a = k := by
      have := List.of_mem_filter ha
      simpa [hp] using this
    have hb2 : rowKey cols order b = k := by
      have := List.of_mem_filter hb
      simpa [hp] using this
    unfold rowGe
    rw [ha2, hb2]
    exact lexLe_refl k
  have hsub : List.Sublist (rows.filter p) (sort_values cols order rows) :=
    List.sublist_insertionSort hc (List.filter_sublist rows)
  have hself : (rows.filter p).filter p = rows.filter p := by
    apply List.filter_eq_self.mpr
    intro a ha
    exact List.of_mem_filter ha
  have hsub2 : List.Sublist (rows.filter p) ((sort_values cols order rows).filter p) := by
    have h2 := hsub.filter p
    rwa [hself] at h2
  have hperm : List.Perm ((sort_values cols order rows).filter p) (rows.filter p) :=
    (sort_values_perm cols order rows).filter p
  exact (hsub2.eq_of_length hperm.length_eq.symm).symm



theorem mem_firstOccurAux [DecidableEq V] :
    ∀ (l seen : List V) (a : V), a ∈ firstOccurAux seen l ↔ a ∈ l ∧ a ∉ seen
  | [], seen, a => by simp [firstOccurAux]
  | b :: l, seen, a => by
    by_cases hb : b ∈ seen
    · rw [firstOccurAux, if_pos hb, mem_firstOccurAux l seen a]
      constructor
      · rintro ⟨h1, h2⟩
        exact ⟨List.mem_cons_of_mem _ h1, h2⟩
      · rintro ⟨h1, h2⟩
        rcases List.mem_cons.mp h1 with h1 | h1
        · subst h1
          exact absurd hb h2
        · exact ⟨h1, h2⟩
    · rw [firstOccurAux, if_neg hb]
      rcases eq_or_ne a b with hab | hab
      · subst hab
        simp [hb]
      · rw [List.mem_cons]
        rw [mem_firstOccurAux l (b :: seen) a]
        simp [hab, List.mem_cons]

theorem nodup_firstOccurAux [DecidableEq V] :
    ∀ (l seen : List V), (firstOccurAux seen l).Nodup
  | [], _ => by simp [firstOccurAux]
  | b :: l, seen => by
    by_cases hb : b ∈ seen
    · rw [firstOccurAux, if_pos hb]
      exact nodup_firstOccurAux l seen
    · rw [firstOccurAux, if_neg hb]
      refine List.Nodup.cons ?_ (nodup_firstOccurAux l (b :: seen))
      intro hmem
      exact ((mem_firstOccurAux l (b :: seen) b).mp hmem).2 (List.mem_cons_self b seen)

theorem mem_firstOccur [DecidableEq V] (l : List V) (a : V) :
    a ∈ firstOccur l ↔ a ∈ l := by
  rw [firstOccur, mem_firstOccurAux]
  simp

theorem nodup_firstOccur [DecidableEq V] (l : List V) : (firstOccur l).Nodup :=
  nodup_firstOccurAux l []

theorem groupby_keys_nodup [DecidableEq V] [Inhabited V] (d : DataFrame V)
    (gcol : String) : ((d.groupby gcol).map Prod.fst).Nodup := by
  unfold DataFrame.groupby
  rw [List.map_map]
  have : (Prod.fst ∘ fun g => (g, d.rows.filter (fun r => d.gkey gcol r = g)))
      = fun g : V => g := rfl
  rw [this]
  simpa using nodup_firstOccur _

theorem groupby_mem [DecidableEq V] [Inhabited V] {d : DataFrame V} {gcol : String}
    {g : V} {data : List (Row V)} (h : (g, data) ∈ d.groupby gcol) :
    data = d.rows.filter (fun r => d.gkey gcol r = g) ∧ data ≠ [] := by
  unfold DataFrame.groupby at h
  obtain ⟨g2, hg2, heq⟩ := List.mem_map.mp h
  obtain ⟨h1, h2⟩ := Prod.mk.injEq .. |>.mp heq
  subst h1
  subst h2
  refine ⟨rfl, ?_⟩
  have hg3 : g2 ∈ d.rows.map (d.gkey gcol) := (mem_firstOccur _ _).mp hg2
  obtain ⟨r, hr, hrg⟩ := List.mem_map.mp hg3
  intro hempty
  have hmem : r ∈ d.rows.filter (fun r => d.gkey gcol r = g2) :=
    List.mem_filter.mpr ⟨hr, by simp [hrg]⟩
  rw [hempty] at hmem
  exact List.not_mem_nil r hmem

theorem placePositions_length (cfg : Config) :
    ∀ (rows : List (Row V)) (i : ℕ) (x y : ℚ),
      (placePositions cfg rows i x y).length = rows.length
  | [], _, _, _ => rfl
  | _ :: rs, i, x, y => by
    simp [placePositions, placePositions_length cfg rs]

theorem placePositions_head (cfg : Config) (rows : List (Row V)) (i : ℕ) (x y : ℚ)
    (p : ℚ × ℚ) (h : (placePositions cfg rows i x y)[0]? = some p) :
    p = columnStep cfg i x y := by
  cases rows with
  | nil => simp [placePositions] at h
  | cons r rs =>
    rw [placePositions] at h
    simp at h
    exact h.symm

theorem placePositions_step (cfg : Config) :
    ∀ (rows : List (Row V)) (i : ℕ) (x y : ℚ) (j : ℕ) (p q : ℚ × ℚ),
      (placePositions cfg rows i x y)[j]? = some p →
      (placePositions cfg rows i x y)[j + 1]? = some q →
      q = columnStep cfg (i + (j + 1)) p.1 p.2
  | [], _, _, _, _, _, _, hp, _ => by simp [placePositions] at hp
  | r :: rs, i, x, y, 0, p, q, hp, hq => by
    rw [placePositions] at hp hq
    simp at hp hq
    have h2 := placePositions_head cfg rs (i + 1) _ _ q hq
    rw [h2, ← hp]
  | r :: rs, i, x, y, j + 1, p, q, hp, hq => by
    rw [placePositions] at hp hq
    simp at hp hq
    have h2 := placePositions_step cfg rs (i + 1) _ _ j p q hp hq
    rw [h2]
    congr 1
    omega

theorem placePositions_chain (cfg : Config) (hr : 0 ≤ cfg.radius) :
    ∀ (rows : List (Row V)) (i : ℕ) (x y : ℚ),
      List.Chain' (· ≤ ·) (x :: (placePositions cfg rows i x y).map Prod.fst)
  | [], _, _, _ => by simp [placePositions]
  | r :: rs, i, x, y => by
    have hgp : (0 : ℚ) ≤ cfg.group_pad := by
      unfold Config.group_pad Config.pad
      linarith
    have hcp : (0 : ℚ) ≤ cfg.circle_pad := by
      unfold Config.circle_pad
      linarith
    have hstep : x ≤ (columnStep cfg i x y).1 := by
      unfold columnStep
      by_cases h1 : i % cfg.circles_per_column = 0
      · by_cases h2 : i = 0 <;> simp [h1, h2] <;> linarith
      · simp [h1]
    have ih := placePositions_chain cfg hr rs (i + 1)
      (columnStep cfg i x y).1 (columnStep cfg i x y).2
    rw [placePositions]
    simp only [List.map_cons]
    exact List.chain'_cons.mpr ⟨hstep, ih⟩



theorem circlesOfGroup_append [DecidableEq V] (a b : List (Event V L)) (g : V) :
    circlesOfGroup (a ++ b) g = circlesOfGroup a g ++ circlesOfGroup b g :=
  List.filterMap_append ..

theorem labelsOfGroup_append [DecidableEq V] (a b : List (Event V L)) (g : V) :
    labelsOfGroup (a ++ b) g = labelsOfGroup a g ++ labelsOfGroup b g :=
  List.filterMap_append ..

theorem circleEvents_append (a b : List (Event V L)) :
    circleEvents (a ++ b) = circleEvents a ++ circleEvents b :=
  List.filterMap_append ..

theorem circleEvents_map_circle (l : List (CircleAttributes V)) :
    circleEvents (L := L) (l.map Event.circle) = l := by
  rw [circleEvents, List.filterMap_map]
  have h2 : ((fun e => match e with
      | Event.circle c => some c
      | Event.label _ => none) ∘ (Event.circle (L := L)))
      = (some : CircleAttributes V → Option (CircleAttributes V)) := rfl
  rw [h2, List.filterMap_some]

theorem circleEvents_label_cons (gl : GroupLabel V L) (t : List (Event V L)) :
    circleEvents (Event.label gl :: t) = circleEvents t := by
  simp [circleEvents]

theorem circleList_group (g : V) (n : ℕ) (rps : List (Row V × (ℚ × ℚ))) :
    ∀ c ∈ circleList g n rps, c.group = g := by
  intro c hc
  obtain ⟨rp, _, heq⟩ := List.mem_map.mp hc
  rw [← heq]

theorem circlesOfGroup_map_circle [DecidableEq V] (l : List (CircleAttributes V))
    (g g' : V) (h : ∀ c ∈ l, c.group = g) :
    circlesOfGroup (L := L) (l.map Event.circle) g'
      = if g' = g then l else [] := by
  induction l with
  | nil => simp [circlesOfGroup]
  | cons c t ih =>
    have hc : c.group = g := h c (List.mem_cons_self c t)
    have ih2 := ih (fun d hd => h d (List.mem_cons_of_mem _ hd))
    simp only [circlesOfGroup, List.map_cons, List.filterMap_cons] at ih2 ⊢
    rw [hc]
    by_cases he : g' = g
    · subst he
      simp only [if_pos rfl] at ih2 ⊢
      simp [ih2]
    · rw [if_neg (Ne.symm he)]
      rw [if_neg he] at ih2
      rw [if_neg he]
      exact ih2

theorem labelsOfGroup_map_circle [DecidableEq V] (l : List (CircleAttributes V))
    (g' : V) : labelsOfGroup (L := L) (l.map Event.circle) g' = [] := by
  rw [labelsOfGroup, List.filterMap_map]
  have h2 : ((fun e => match e with
      | Event.label gl => if gl.group_label = g' then some gl else none
      | Event.circle _ => none) ∘ (Event.circle (L := L)))
      = (fun _ : CircleAttributes V => (none : Option (GroupLabel V L))) := rfl
  rw [h2]
  simp

theorem circlesOfGroup_label_cons [DecidableEq V] (gl : GroupLabel V L)
    (t : List (Event V L)) (g : V) :
    circlesOfGroup (Event.label gl :: t) g = circlesOfGroup t g := by
  simp [circlesOfGroup]

theorem labelsOfGroup_label_cons [DecidableEq V] (gl : GroupLabel V L)
    (t : List (Event V L)) (g : V) :
    labelsOfGroup (Event.label gl :: t) g
      = if gl.group_label = g then gl :: labelsOfGroup t g else labelsOfGroup t g := by
  simp only [labelsOfGroup, List.filterMap_cons]
  by_cases h : gl.group_label = g
  · simp [h]
  · simp [h]

theorem groupCircles_group [LinearOrder V] [Inhabited V] (cfg : Config)
    (cols order : List String) (g g' : V) (data : List (Row V)) (x1 : ℚ) :
    circlesOfGroup (L := L) (groupCircles cfg cols order g data x1) g'
      = if g' = g then
          circleList g data.length
            ((sort_values cols order data).zip (groupPs cfg cols order data x1))
        else [] := by
  unfold groupCircles
  exact circlesOfGroup_map_circle _ g g' (circleList_group g data.length _)

theorem runGroups_not_mem [LinearOrder V] [Inhabited V]
    (cfg : Config) (attrs : List (V × PlotAttributes C L)) (cols order : List String) :
    ∀ (gs : List (V × List (Row V))) (x : ℚ) (g : V), g ∉ gs.map Prod.fst →
      circlesOfGroup (runGroups cfg attrs cols order gs x).1 g = []
        ∧ labelsOfGroup (runGroups cfg attrs cols order gs x).1 g = []
  | [], x, g, _ => by simp [runGroups, circlesOfGroup, labelsOfGroup]
  | (g0, data0) :: rest, x, g, hnm => by
    have hne0 : g ≠ g0 := by
      intro he
      exact hnm (by simp [he])
    have hnm2 : g ∉ rest.map Prod.fst := by
      intro hm
      exact hnm (by simp [hm])
    cases data0 with
    | nil =>
      rw [runGroups]
      exact runGroups_not_mem cfg attrs cols order rest _ g hnm2
    | cons r0 t0 =>
      rw [runGroups]
      cases hlk : lookupAttr attrs g0 with
      | none =>
        simp only []
        constructor
        · rw [groupCircles_group]
          simp [hne0]
        · exact labelsOfGroup_map_circle _ g
      | some pa =>
        have ih := runGroups_not_mem cfg attrs cols order rest
          (groupEndX cfg cols order (r0 :: t0) (xShift cfg x)) g hnm2
        simp only []
        constructor
        · rw [circlesOfGroup_append, circlesOfGroup_label_cons, groupCircles_group]
          simp [hne0, ih.1]
        · rw [labelsOfGroup_append, labelsOfGroup_label_cons]
          simp only [labelOf]
          unfold groupCircles
          simp [hne0.symm, labelsOfGroup_map_circle, ih.2]



theorem runGroups_err_none [LinearOrder V] [Inhabited V]
    (cfg : Config) (attrs : List (V × PlotAttributes C L)) (cols order : List String) :
    ∀ (gs : List (V × List (Row V))) (x : ℚ),
      (∀ gd ∈ gs, (lookupAttr attrs gd.1).isSome) →
      (runGroups cfg attrs cols order gs x).2 = none
  | [], _, _ => rfl
  | (g0, []) :: rest, x, hlk => by
    rw [runGroups]
    exact runGroups_err_none cfg attrs cols order rest _
      (fun gd hgd => hlk gd (List.mem_cons_of_mem _ hgd))
  | (g0, r0 :: t0) :: rest, x, hlk => by
    rw [runGroups]
    have h0 := hlk (g0, r0 :: t0) (List.mem_cons_self _ _)
    rw [Option.isSome_iff_exists] at h0
    obtain ⟨pa, hpa⟩ := h0
    rw [hpa]
    exact runGroups_err_none cfg attrs cols order rest _
      (fun gd hgd => hlk gd (List.mem_cons_of_mem _ hgd))

theorem runGroups_decomp [LinearOrder V] [Inhabited V]
    (cfg : Config) (attrs : List (V × PlotAttributes C L)) (cols order : List String) :
    ∀ (gs : List (V × List (Row V))) (x : ℚ),
      (∀ gd ∈ gs, (lookupAttr attrs gd.1).isSome) →
      ((gs.map Prod.fst).Nodup) →
      ∀ g data, (g, data) ∈ gs → data ≠ [] →
      ∃ (pre post : List (Event V L)) (x1 : ℚ) (pa : PlotAttributes C L),
        lookupAttr attrs g = some pa ∧
        (runGroups cfg attrs cols order gs x).1
          = pre ++ groupCircles cfg cols order g data x1
            ++ Event.label (labelOf cfg pa.label g data.length
                (groupPs cfg cols order data x1)) :: post ∧
        circlesOfGroup pre g = [] ∧ circlesOfGroup post g = [] ∧
        labelsOfGroup pre g = [] ∧ labelsOfGroup post g = []
  | [], x, _, _, g, data, hmem, _ => absurd hmem (List.not_mem_nil _)
  | (g0, data0) :: rest, x, hlk, hnd, g, data, hmem, hne => by
    rw [List.map_cons] at hnd
    obtain ⟨hg0, hndr⟩ := List.nodup_cons.mp hnd
    rcases List.mem_cons.mp hmem with heq | hmem2
    · obtain ⟨h1, h2⟩ := Prod.mk.injEq .. |>.mp heq
      subst h1
      subst h2
      cases hdata : data with
      | nil => exact absurd hdata hne
      | cons r0 t0 =>
        subst hdata
        have h0 := hlk (g, r0 :: t0) (List.mem_cons_self _ _)
        rw [Option.isSome_iff_exists] at h0
        obtain ⟨pa, hpa⟩ := h0
        have hnm := runGroups_not_mem cfg attrs cols order rest
          (groupEndX cfg cols order (r0 :: t0) (xShift cfg x)) g hg0
        refine ⟨[], (runGroups cfg attrs cols order rest
            (groupEndX cfg cols order (r0 :: t0) (xShift cfg x))).1,
          xShift cfg x, pa, hpa, ?_, rfl, hnm.1, rfl, hnm.2⟩
        rw [runGroups, hpa]
        simp
    · have hgr : g ∈ rest.map Prod.fst := by
        exact List.mem_map.mpr ⟨(g, data), hmem2, rfl⟩
      have hgne : g ≠ g0 := by
        intro he
        rw [he] at hgr
        exact hg0 hgr
      have hlkr : ∀ gd ∈ rest, (lookupAttr attrs gd.1).isSome :=
        fun gd hgd => hlk gd (List.mem_cons_of_mem _ hgd)
      cases data0 with
      | nil =>
        rw [runGroups]
        exact runGroups_decomp cfg attrs cols order rest (xShift cfg x)
          hlkr hndr g data hmem2 hne
      | cons r0 t0 =>
        have h0 := hlk (g0, r0 :: t0) (List.mem_cons_self _ _)
        rw [Option.isSome_iff_exists] at h0
        obtain ⟨pa0, hpa0⟩ := h0
        obtain ⟨pre, post, x1, pa, hpa, hrun, hc1, hc2, hl1, hl2⟩ :=
          runGroups_decomp cfg attrs cols order rest
            (groupEndX cfg cols order (r0 :: t0) (xShift cfg x))
            hlkr hndr g data hmem2 hne
        refine ⟨groupCircles cfg cols order g0 (r0 :: t0) (xShift cfg x)
            ++ Event.label (labelOf cfg pa0.label g0 (r0 :: t0).length
              (groupPs cfg cols order (r0 :: t0) (xShift cfg x))) :: pre,
          post, x1, pa, hpa, ?_, ?_, hc2, ?_, hl2⟩
        · rw [runGroups, hpa0]
          simp [hrun]
        · rw [circlesOfGroup_append, circlesOfGroup_label_cons, groupCircles_group]
          simp [hgne, hc1]
        · rw [labelsOfGroup_append, labelsOfGroup_label_cons]
          unfold groupCircles
          simp [labelOf, hgne.symm, labelsOfGroup_map_circle, hl1]



theorem group_pad_nonneg (cfg : Config) (hr : 0 ≤ cfg.radius) : 0 ≤ cfg.group_pad := by
  rw [Config.group_pad, Config.pad]
  linarith

theorem group_pad_pos (cfg : Config) (hr : 0 < cfg.radius) : 0 < cfg.group_pad := by
  rw [Config.group_pad, Config.pad]
  linarith

theorem circle_pad_nonneg (cfg : Config) (hr : 0 ≤ cfg.radius) : 0 ≤ cfg.circle_pad := by
  rw [Config.circle_pad]
  linarith

theorem circle_pad_pos (cfg : Config) (hr : 0 < cfg.radius) : 0 < cfg.circle_pad := by
  rw [Config.circle_pad]
  linarith

theorem le_xShift (cfg : Config) (hr : 0 ≤ cfg.radius) (x : ℚ) : x ≤ xShift cfg x := by
  have h := group_pad_nonneg cfg hr
  rw [xShift]
  split <;> linarith

theorem chain_le_head {a b : ℚ} {l : List ℚ} (hab : a ≤ b)
    (h : List.Chain' (· ≤ ·) (b :: l)) : List.Chain' (· ≤ ·) (a :: l) := by
  rw [List.chain'_cons'] at h ⊢
  exact ⟨fun y hy => hab.trans (h.1 y hy), h.2⟩

theorem groupPs_length [LinearOrder V] [Inhabited V] (cfg : Config)
    (cols order : List String) (data : List (Row V)) (x1 : ℚ) :
    (groupPs cfg cols order data x1).length = data.length := by
  rw [groupPs, placePositions_length, sort_values_length]

theorem circleEvents_groupCircles [LinearOrder V] [Inhabited V] (cfg : Config)
    (cols order : List String) (g : V) (data : List (Row V)) (x1 : ℚ) :
    circleEvents (L := L) (groupCircles cfg cols order g data x1)
      = circleList g data.length
          ((sort_values cols order data).zip (groupPs cfg cols order data x1)) := by
  rw [groupCircles, circleEvents_map_circle]

theorem circleList_map_x (g : V) (n : ℕ) (sorted : List (Row V)) (ps : List (ℚ × ℚ))
    (hl : ps.length ≤ sorted.length) :
    (circleList g n (sorted.zip ps)).map CircleAttributes.x = ps.map Prod.fst := by
  rw [circleList, List.map_map]
  have h2 : (CircleAttributes.x ∘ fun rp : Row V × (ℚ × ℚ) =>
      ({ group := g, count := n, row := rp.1, x := rp.2.1, y := rp.2.2 } : CircleAttributes V))
      = Prod.fst ∘ Prod.snd := rfl
  rw [h2, ← List.map_map, List.map_snd_zip _ _ hl]

theorem circleList_map_y (g : V) (n : ℕ) (sorted : List (Row V)) (ps : List (ℚ × ℚ))
    (hl : ps.length ≤ sorted.length) :
    (circleList g n (sorted.zip ps)).map CircleAttributes.y = ps.map Prod.snd := by
  rw [circleList, List.map_map]
  have h2 : (CircleAttributes.y ∘ fun rp : Row V × (ℚ × ℚ) =>
      ({ group := g, count := n, row := rp.1, x := rp.2.1, y := rp.2.2 } : CircleAttributes V))
      = Prod.snd ∘ Prod.snd := rfl
  rw [h2, ← List.map_map, List.map_snd_zip _ _ hl]

theorem circleList_map_row (g : V) (n : ℕ) (sorted : List (Row V)) (ps : List (ℚ × ℚ))
    (hl : sorted.length ≤ ps.length) :
    (circleList g n (sorted.zip ps)).map CircleAttributes.row = sorted := by
  rw [circleList, List.map_map]
  have h2 : (CircleAttributes.row ∘ fun rp : Row V × (ℚ × ℚ) =>
      ({ group := g, count := n, row := rp.1, x := rp.2.1, y := rp.2.2 } : CircleAttributes V))
      = Prod.fst := rfl
  rw [h2, List.map_fst_zip _ _ hl]

theorem groupCircles_xs [LinearOrder V] [Inhabited V] (cfg : Config)
    (cols order : List String) (g : V) (data : List (Row V)) (x1 : ℚ) :
    (circleEvents (L := L) (groupCircles cfg cols order g data x1)).map CircleAttributes.x
      = (groupPs cfg cols order data x1).map Prod.fst := by
  rw [circleEvents_groupCircles, circleList_map_x]
  rw [groupPs_length, sort_values_length]

theorem groupEndX_eq_getLast [LinearOrder V] [Inhabited V] (cfg : Config)
    (cols order : List String) (data : List (Row V)) (x1 : ℚ) (hne : data ≠ []) :
    ∃ h : ((groupPs cfg cols order data x1).map Prod.fst) ≠ [],
      groupEndX cfg cols order data x1
        = ((groupPs cfg cols order data x1).map Prod.fst).getLast h := by
  have hne2 : ((groupPs cfg cols order data x1).map Prod.fst) ≠ [] := by
    intro h0
    apply hne
    have := congrArg List.length h0
    rw [List.length_map, groupPs_length] at this
    exact List.length_eq_zero.mp this
  refine ⟨hne2, ?_⟩
  rw [groupEndX, List.getLast?_eq_getLast _ hne2]
  rfl

theorem runGroups_chain [LinearOrder V] [Inhabited V]
    (cfg : Config) (attrs : List (V × PlotAttributes C L)) (cols order : List String)
    (hr : 0 ≤ cfg.radius) :
    ∀ (gs : List (V × List (Row V))) (x : ℚ),
      List.Chain' (· ≤ ·)
        (x :: (circleEvents (runGroups cfg attrs cols order gs x).1).map CircleAttributes.x)
  | [], x => by simp [runGroups, circleEvents]
  | (g0, []) :: rest, x => by
    rw [runGroups]
    exact chain_le_head (le_xShift cfg hr x)
      (runGroups_chain cfg attrs cols order hr rest _)
  | (g0, r0 :: t0) :: rest, x => by
    have hx1 : x ≤ xShift cfg x := le_xShift cfg hr x
    have hchain : List.Chain' (· ≤ ·) ((xShift cfg x)
        :: (groupPs cfg cols order (r0 :: t0) (xShift cfg x)).map Prod.fst) := by
      rw [groupPs]
      exact placePositions_chain cfg hr _ 0 _ _
    cases hlk : lookupAttr attrs g0 with
    | none =>
      rw [runGroups, hlk]
      simp only []
      rw [groupCircles_xs]
      exact chain_le_head hx1 hchain
    | some pa =>
      rw [runGroups, hlk]
      simp only []
      rw [circleEvents_append, circleEvents_label_cons, List.map_append, groupCircles_xs]
      obtain ⟨hne2, hEnd⟩ := groupEndX_eq_getLast cfg cols order (r0 :: t0)
        (xShift cfg x) (List.cons_ne_nil r0 t0)
      have ih := runGroups_chain cfg attrs cols order hr rest
        (groupEndX cfg cols order (r0 :: t0) (xShift cfg x))
      have hsplit : x :: ((groupPs cfg cols order (r0 :: t0) (xShift cfg x)).map Prod.fst
          ++ (circleEvents (runGroups cfg attrs cols order rest
              (groupEndX cfg cols order (r0 :: t0) (xShift cfg x))).1).map CircleAttributes.x)
          = (x :: (groupPs cfg cols order (r0 :: t0) (xShift cfg x)).map Prod.fst)
            ++ (circleEvents (runGroups cfg attrs cols order rest
              (groupEndX cfg cols order (r0 :: t0) (xShift cfg x))).1).map CircleAttributes.x := rfl
    
      rw [hsplit, List.chain'_append]
      refine ⟨chain_le_head hx1 hchain, ih.tail, ?_⟩
      intro a ha b hb
      have hlast : (x :: (groupPs cfg cols order (r0 :: t0) (xShift cfg x)).map Prod.fst).getLast?
          = some (groupEndX cfg cols order (r0 :: t0) (xShift cfg x)) := by
        rw [List.getLast?_eq_getLast _ (List.cons_ne_nil _ _)]
        rw [List.getLast_cons hne2, ← hEnd]
      rw [hlast] at ha
      have ha2 : a = groupEndX cfg cols order (r0 :: t0) (xShift cfg x) :=
        (Option.some_inj.mp ha).symm
      subst ha2
      rw [List.chain'_cons'] at ih
      exact ih.1 b hb



theorem columnStep_zero (cfg : Config) (x y : ℚ) :
    columnStep cfg 0 x y = (x + cfg.group_pad, cfg.y_init) := by
  rw [columnStep]
  simp

theorem blockLen [LinearOrder V] [Inhabited V] (cfg : Config)
    (cols order : List String) (g : V) (data : List (Row V)) (x1 : ℚ) :
    (circleList g data.length
      ((sort_values cols order data).zip (groupPs cfg cols order data x1))).length
      = data.length := by
  rw [circleList, List.length_map, List.length_zip, sort_values_length, groupPs_length]
  exact Nat.min_self _

theorem mem_of_getElem? {α : Type} {l : List α} {n : ℕ} {a : α}
    (h : l[n]? = some a) : a ∈ l := by
  obtain ⟨hlt, hget⟩ := List.getElem?_eq_some_iff.mp h
  exact hget ▸ List.getElem_mem hlt

theorem run_cons_head_circle [LinearOrder V] [Inhabited V]
    (cfg : Config) (attrs : List (V × PlotAttributes C L)) (cols order : List String)
    (g0 : V) (r0 : Row V) (t0 : List (Row V)) (rest : List (V × List (Row V))) (x : ℚ)
    (q : CircleAttributes V)
    (hq : (circleEvents (runGroups cfg attrs cols order ((g0, r0 :: t0) :: rest) x).1).head?
      = some q) :
    q.x = xShift cfg x + cfg.group_pad := by
  have hlen : (sort_values cols order (r0 :: t0)).length
      = (groupPs cfg cols order (r0 :: t0) (xShift cfg x)).length := by
    rw [sort_values_length, groupPs_length]
  have hBx : (circleList g0 (r0 :: t0).length ((sort_values cols order (r0 :: t0)).zip
        (groupPs cfg cols order (r0 :: t0) (xShift cfg x)))).map CircleAttributes.x
      = (groupPs cfg cols order (r0 :: t0) (xShift cfg x)).map Prod.fst :=
    circleList_map_x _ _ _ _ (le_of_eq hlen.symm)
  have hB0 : 0 < (circleList g0 (r0 :: t0).length ((sort_values cols order (r0 :: t0)).zip
      (groupPs cfg cols order (r0 :: t0) (xShift cfg x)))).length := by
    rw [blockLen]
    simp
  have hhead : (circleList g0 (r0 :: t0).length ((sort_values cols order (r0 :: t0)).zip
      (groupPs cfg cols order (r0 :: t0) (xShift cfg x)))).head? = some q := by
    cases hlk : lookupAttr attrs g0 with
    | none =>
      rw [runGroups, hlk] at hq
      rw [← circleEvents_groupCircles (L := L)]
      exact hq
    | some pa =>
      rw [runGroups, hlk] at hq
      simp only [] at hq
      rw [circleEvents_append, circleEvents_label_cons, circleEvents_groupCircles,
        List.head?_append] at hq
      obtain ⟨b0, hb0⟩ : ∃ b0, (circleList g0 (r0 :: t0).length
          ((sort_values cols order (r0 :: t0)).zip
            (groupPs cfg cols order (r0 :: t0) (xShift cfg x)))).head? = some b0 := by
        rw [List.head?_eq_getElem?, List.getElem?_eq_getElem hB0]
        exact ⟨_, rfl⟩
      rw [hb0] at hq ⊢
      rw [show Option.or (some b0) (circleEvents (runGroups cfg attrs cols order rest
          (groupEndX cfg cols order (r0 :: t0) (xShift cfg x))).1).head? = some b0 from rfl] at hq
      exact hq
  have hqx : ((groupPs cfg cols order (r0 :: t0) (xShift cfg x)).map Prod.fst).head?
      = some q.x := by
    rw [← hBx, List.head?_map, hhead]
    rfl
  rw [List.head?_map] at hqx
  have hps0 : (groupPs cfg cols order (r0 :: t0) (xShift cfg x))[0]?
      = ((groupPs cfg cols order (r0 :: t0) (xShift cfg x)).head?) :=
    (List.head?_eq_getElem? _).symm
  cases hh : (groupPs cfg cols order (r0 :: t0) (xShift cfg x)).head? with
  | none => rw [hh] at hqx; exact absurd hqx (by simp)
  | some p0 =>
    rw [hh] at hqx
    have hp0 : p0 = columnStep cfg 0 (xShift cfg x) cfg.y_init := by
      apply placePositions_head cfg (sort_values cols order (r0 :: t0)) 0 _ _
      rw [← groupPs]
      rw [hps0, hh]
    have : q.x = p0.1 := by
      simpa using hqx.symm
    rw [this, hp0, columnStep_zero]

theorem runGroups_head_x [LinearOrder V] [Inhabited V]
    (cfg : Config) (attrs : List (V × PlotAttributes C L)) (cols order : List String)
    (hr : 0 ≤ cfg.radius) :
    ∀ (gs : List (V × List (Row V))) (x : ℚ) (q : CircleAttributes V),
      (circleEvents (runGroups cfg attrs cols order gs x).1).head? = some q →
      x + cfg.group_pad ≤ q.x
  | [], x, q, hq => by simp [runGroups, circleEvents] at hq
  | (g0, []) :: rest, x, q, hq => by
    rw [runGroups] at hq
    have h2 := runGroups_head_x cfg attrs cols order hr rest (xShift cfg x) q hq
    have hx := le_xShift cfg hr x
    linarith
  | (g0, r0 :: t0) :: rest, x, q, hq => by
    have h2 := run_cons_head_circle cfg attrs cols order g0 r0 t0 rest x q hq
    have hx := le_xShift cfg hr x
    rw [h2]
    linarith

theorem runGroups_group_boundary [LinearOrder V] [Inhabited V]
    (cfg : Config) (attrs : List (V × PlotAttributes C L)) (cols order : List String)
    (hr : 0 < cfg.radius) :
    ∀ (gs : List (V × List (Row V))) (x : ℚ) (j : ℕ) (p q : CircleAttributes V),
      (circleEvents (runGroups cfg attrs cols order gs x).1)[j]? = some p →
      (circleEvents (runGroups cfg attrs cols order gs x).1)[j + 1]? = some q →
      p.group ≠ q.group → p.x < q.x
  | [], x, j, p, q, hp, _, _ => by simp [runGroups, circleEvents] at hp
  | (g0, []) :: rest, x, j, p, q, hp, hq, hne => by
    rw [runGroups] at hp hq
    exact runGroups_group_boundary cfg attrs cols order hr rest _ j p q hp hq hne
  | (g0, r0 :: t0) :: rest, x, j, p, q, hp, hq, hne => by
    cases hlk : lookupAttr attrs g0 with
    | none =>
      rw [runGroups, hlk] at hp hq
      simp only [] at hp hq
      rw [circleEvents_groupCircles] at hp hq
      have hpg := circleList_group g0 (r0 :: t0).length _ p (mem_of_getElem? hp)
      have hqg := circleList_group g0 (r0 :: t0).length _ q (mem_of_getElem? hq)
      exact absurd (by rw [hpg, hqg]) hne
    | some pa =>
      rw [runGroups, hlk] at hp hq
      simp only [] at hp hq
      rw [circleEvents_append, circleEvents_label_cons, circleEvents_groupCircles] at hp hq
      set B := circleList g0 (r0 :: t0).length ((sort_values cols order (r0 :: t0)).zip
        (groupPs cfg cols order (r0 :: t0) (xShift cfg x))) with hB
      have hBlen : B.length = (r0 :: t0).length := blockLen cfg cols order g0 (r0 :: t0) _
      by_cases hj1 : j + 1 < B.length
      · rw [List.getElem?_append_left (Nat.lt_of_succ_lt hj1)] at hp
        rw [List.getElem?_append_left hj1] at hq
        have hpg := circleList_group g0 (r0 :: t0).length _ p (mem_of_getElem? (hB ▸ hp))
        have hqg := circleList_group g0 (r0 :: t0).length _ q (mem_of_getElem? (hB ▸ hq))
        exact absurd (by rw [hpg, hqg]) hne
      · by_cases hj : j < B.length
        · rw [List.getElem?_append_left hj] at hp
          rw [List.getElem?_append_right (Nat.le_of_not_lt hj1)] at hq
          have hj0 : j + 1 - B.length = 0 := by omega
          rw [hj0] at hq
          have hq2 := runGroups_head_x cfg attrs cols order (le_of_lt hr) rest
            (groupEndX cfg cols order (r0 :: t0) (xShift cfg x)) q
            (by rw [List.head?_eq_getElem?]; exact hq)
          have hpx : p.x = groupEndX cfg cols order (r0 :: t0) (xShift cfg x) := by
            obtain ⟨hne2, hEnd⟩ := groupEndX_eq_getLast cfg cols order (r0 :: t0)
              (xShift cfg x) (List.cons_ne_nil _ _)
            have hmapx : (B.map CircleAttributes.x)[j]? = some p.x := by
              rw [List.getElem?_map, hp]
              rfl
            rw [hB] at hmapx
            rw [circleList_map_x _ _ _ _
              (by rw [sort_values_length, groupPs_length])] at hmapx
            have hjlast : j = ((groupPs cfg cols order (r0 :: t0)
                (xShift cfg x)).map Prod.fst).length - 1 := by
              rw [List.length_map, groupPs_length]
              omega
            rw [hjlast, ← List.getLast?_eq_getElem?] at hmapx
            rw [List.getLast?_eq_getLast _ hne2] at hmapx
            rw [hEnd]
            exact (Option.some_inj.mp hmapx).symm
          have hgp := group_pad_pos cfg hr
          rw [hpx]
          linarith
        · rw [List.getElem?_append_right (Nat.le_of_not_lt hj)] at hp
          rw [List.getElem?_append_right (by omega)] at hq
          have hidx : j + 1 - B.length = (j - B.length) + 1 := by omega
          rw [hidx] at hq
          exact runGroups_group_boundary cfg attrs cols order hr rest _
            (j - B.length) p q hp hq hne

theorem runGroups_circles_extract [LinearOrder V] [Inhabited V]
    (cfg : Config) (attrs : List (V × PlotAttributes C L)) (cols order : List String) :
    ∀ (gs : List (V × List (Row V))) (x : ℚ),
      ((gs.map Prod.fst).Nodup) →
      ∀ g data, (g, data) ∈ gs →
      circlesOfGroup (L := L) (runGroups cfg attrs cols order gs x).1 g = [] ∨
      ∃ x1, circlesOfGroup (L := L) (runGroups cfg attrs cols order gs x).1 g
        = circleList g data.length
            ((sort_values cols order data).zip (groupPs cfg cols order data x1))
  | [], _, _, g, data, hmem => absurd hmem (List.not_mem_nil _)
  | (g0, data0) :: rest, x, hnd, g, data, hmem => by
    rw [List.map_cons] at hnd
    obtain ⟨hg0, hndr⟩ := List.nodup_cons.mp hnd
    rcases List.mem_cons.mp hmem with heq | hmem2
    · obtain ⟨h1, h2⟩ := Prod.mk.injEq .. |>.mp heq
      subst h1
      subst h2
      cases data with
      | nil =>
        rw [runGroups]
        exact Or.inl (runGroups_not_mem cfg attrs cols order rest (xShift cfg x) g hg0).1
      | cons r0 t0 =>
        right
        refine ⟨xShift cfg x, ?_⟩
        cases hlk : lookupAttr attrs g with
        | none =>
          rw [runGroups, hlk]
          simp only []
          rw [groupCircles_group]
          simp
        | some pa =>
          rw [runGroups, hlk]
          simp only []
          rw [circlesOfGroup_append, circlesOfGroup_label_cons, groupCircles_group]
          rw [(runGroups_not_mem cfg attrs cols order rest
            (groupEndX cfg cols order (r0 :: t0) (xShift cfg x)) g hg0).1]
          simp
    · have hgr : g ∈ rest.map Prod.fst := List.mem_map.mpr ⟨(g, data), hmem2, rfl⟩
      have hgne : g ≠ g0 := by
        intro he
        rw [he] at hgr
        exact hg0 hgr
      cases data0 with
      | nil =>
        rw [runGroups]
        exact runGroups_circles_extract cfg attrs cols order rest (xShift cfg x)
          hndr g data hmem2
      | cons r0 t0 =>
        cases hlk : lookupAttr attrs g0 with
        | none =>
          rw [runGroups, hlk]
          simp only []
          rw [groupCircles_group]
          simp [hgne]
        | some pa =>
          rw [runGroups, hlk]
          simp only []
          rw [circlesOfGroup_append, circlesOfGroup_label_cons, groupCircles_group]
          have ih := runGroups_circles_extract cfg attrs cols order rest
            (groupEndX cfg cols order (r0 :: t0) (xShift cfg x)) hndr g data hmem2
          rcases ih with ih | ⟨x1, ih⟩
          · rw [ih]
            simp [hgne]
          · right
            refine ⟨x1, ?_⟩
            rw [ih]
            simp [hgne]



theorem validateInput_df_none [Inhabited V] (d : DataFrame V) (gcol : String)
    (order : List String) (hg : gcol ∈ d.cols) (ho : ∀ c ∈ order, c ∈ d.cols) :
    validateInput (Input.df d) gcol order = none := by
  rw [validateInput, if_neg (by simp [hg])]
  rw [if_neg (by simpa using ho)]

theorem Gen_run_valid [LinearOrder V] [Inhabited V]
    (cfg : Config) (attrs : List (V × PlotAttributes C L)) (d : DataFrame V)
    (gcol : String) (order : List String)
    (hg : gcol ∈ d.cols) (ho : ∀ c ∈ order, c ∈ d.cols) :
    (circle_generator cfg attrs (Input.df d) gcol order).run
      = runGroups cfg attrs d.cols order (d.groupby gcol) cfg.x_init := by
  rw [circle_generator, Gen.run]
  simp only [validateInput_df_none d gcol order hg ho]

/-- C1 (code-bug evidence): the `alpha` setter's chained comparison
`0 > value <= 1` raises `ValueError` exactly for negative numeric values, so
the boundary `1.0` is accepted, but `0.0` and `2.0` — which the spec requires
to be rejected as outside `(0, 1]` — are accepted as well. -/
theorem c1_alpha_validation_code_bug :
    set_alpha (PyNum.num 1) = Except.ok 1
      ∧ set_alpha (PyNum.num 0) = Except.ok 0
      ∧ set_alpha (PyNum.num 2) = Except.ok 2
      ∧ (∀ v : ℚ, set_alpha (PyNum.num v) = Except.error Err.valueError ↔ v < 0) := by
  have hchar : ∀ v : ℚ, set_alpha (PyNum.num v)
      = if v < 0 then Except.error Err.valueError else Except.ok v := by
    intro v
    simp only [set_alpha]
    rcases lt_or_ge v 0 with h | h
    · rw [if_pos ⟨h, by linarith⟩, if_pos h]
    · rw [if_neg (fun hh => absurd h (not_le.mpr hh.1)), if_neg (not_lt.mpr h)]
  refine ⟨by rw [hchar]; norm_num, by rw [hchar]; norm_num, by rw [hchar]; norm_num, ?_⟩
  intro v
  rw [hchar]
  rcases lt_or_ge v 0 with h | h
  · simp [h]
  · simp [not_lt.mpr h]

/-- C3: with `radius = 1/5` (so `pad = 2/5`, `group_pad = 4/5`,
`circle_pad = 3/5`), `x_init = 0`, `y_init = 1`, `circles_per_column = 10`, a
single group of three records yields exactly the placements
`(4/5, 1), (4/5, 8/5), (4/5, 11/5)` followed by one summary with
`label_x = 4/5` and `gridline_x = 8/5`; in particular the group margin is
applied before the first circle of the first group. -/
theorem c3_first_group_margin_example :
    (circle_generator ⟨1/5, 0, 1, 10⟩
        [((1 : ℚ), (⟨true, 1, "sub"⟩ : PlotAttributes Bool String))]
        (Input.df ⟨["g", "v"], [[1, 3], [1, 2], [1, 1]]⟩) "g" ["v"]).run =
      ([Event.circle ⟨1, 3, [1, 3], 4/5, 1⟩,
        Event.circle ⟨1, 3, [1, 2], 4/5, 8/5⟩,
        Event.circle ⟨1, 3, [1, 1], 4/5, 11/5⟩,
        Event.label ⟨1, "sub", 3, 4/5, 7, 8/5⟩], none) := by
  with_unfolding_all rfl

/-- C8: when the input is not a DataFrame, or the group column or an order
column is missing from its schema, the run of `circle_generator` produces the
matching type/value error and no events at all (all-or-nothing). -/
theorem c8_schema_errors_all_or_nothing {V C L : Type} [LinearOrder V] [Inhabited V]
    (cfg : Config) (attrs : List (V × PlotAttributes C L)) (input : Input V)
    (gcol : String) (order : List String)
    (h : input = Input.notDF
      ∨ ∃ d, input = Input.df d ∧ (gcol ∉ d.cols ∨ ∃ c ∈ order, c ∉ d.cols)) :
    ∃ e, (circle_generator cfg attrs input gcol order).run = ([], some e)
      ∧ (input = Input.notDF → e = Err.typeError)
      ∧ ((∃ d, input = Input.df d) → e = Err.valueError) := by
  rcases h with h | ⟨d, hd, hmiss⟩
  · subst h
    refine ⟨Err.typeError, rfl, fun _ => rfl, ?_⟩
    rintro ⟨d, hd⟩
    cases hd
  · subst hd
    have hv : validateInput (Input.df d) gcol order = some Err.valueError := by
      rw [validateInput]
      rcases hmiss with hm | ⟨c, hc, hcn⟩
      · rw [if_pos (by simpa using hm)]
      · by_cases hgc : gcol ∈ d.cols
        · rw [if_neg (by simp [hgc]),
            if_pos (List.any_eq_true.mpr ⟨c, hc, by simpa using hcn⟩)]
        · rw [if_pos (by simpa using hgc)]
    refine ⟨Err.valueError, ?_, ?_, fun _ => rfl⟩
    · rw [circle_generator, Gen.run]
      simp only [hv]
    · intro he
      cases he

/-- C8 witness: a DataFrame with a single column `a`; grouping by the missing
column `b` yields a value error and an empty event list. -/
theorem c8_witness :
    ∃ e, (circle_generator (⟨1, 0, 0, 1⟩ : Config)
        ([] : List (ℚ × PlotAttributes Bool String))
        (Input.df ⟨["a"], []⟩) "b" []).run = ([], some e)
      ∧ (Input.df (⟨["a"], []⟩ : DataFrame ℚ) = Input.notDF → e = Err.typeError)
      ∧ ((∃ d, Input.df (⟨["a"], []⟩ : DataFrame ℚ) = Input.df d) → e = Err.valueError) :=
  c8_schema_errors_all_or_nothing _ _ _ _ _
    (Or.inr ⟨⟨["a"], []⟩, rfl, Or.inl (by decide)⟩)

/-- C10: calling `circle_generator` performs no validation and returns a
generator object for every argument (the call is the plain packaging of its
arguments); the validation error surfaces only when the sequence is forced,
as the error that precedes any yielded element. -/
theorem c10_lazy_validation {V C L : Type} [LinearOrder V] [Inhabited V]
    (cfg : Config) (attrs : List (V × PlotAttributes C L)) (input : Input V)
    (gcol : String) (order : List String) :
    circle_generator cfg attrs input gcol order
        = { cfg := cfg, attrs := attrs, input := input, group := gcol, order := order }
      ∧ (∀ e, validateInput input gcol order = some e →
          (circle_generator cfg attrs input gcol order).run = ([], some e)) := by
  refine ⟨rfl, ?_⟩
  intro e he
  rw [circle_generator, Gen.run]
  simp only [he]

/-- C10 witness: calling the generator on a non-DataFrame input succeeds, and
forcing it yields the type error with no preceding events. -/
theorem c10_witness :
    (circle_generator (⟨1, 0, 0, 1⟩ : Config)
        ([] : List (ℚ × PlotAttributes Bool String)) Input.notDF "g" []).run
      = ([], some Err.typeError) :=
  (c10_lazy_validation _ _ _ _ _).2 Err.typeError rfl



theorem plotAttrLoop_ok {G : Type} (iscl : C → Bool) :
    ∀ (d : List (G × AttrVal C L)),
      (∀ e ∈ d, ∃ pa, processAttr iscl e.2 = Except.ok pa) →
      (plotAttrLoop iscl d).2 = none
        ∧ ((plotAttrLoop iscl d).1).map Prod.fst = d.map Prod.fst
        ∧ (∀ e ∈ (plotAttrLoop iscl d).1, ∃ pa, e.2 = AttrVal.attrObj pa)
  | [], _ => by simp [plotAttrLoop]
  | (g, v) :: t, hall => by
    obtain ⟨pa, hpa⟩ := hall (g, v) (List.mem_cons_self _ _)
    have ih := plotAttrLoop_ok iscl t (fun e he => hall e (List.mem_cons_of_mem _ he))
    rw [plotAttrLoop, hpa]
    refine ⟨ih.1, ?_, ?_⟩
    · simp [ih.2.1]
    · intro e he
      rcases List.mem_cons.mp he with he | he
      · subst he
        exact ⟨pa, rfl⟩
      · exact ih.2.2 e he

theorem plotAttrLoop_all_attrObj {G : Type} (iscl : C → Bool)
    (d : List (G × AttrVal C L)) (hne : d ≠ [])
    (hall : ∀ e ∈ d, ∃ pa, e.2 = AttrVal.attrObj pa) :
    (plotAttrLoop iscl d).2 = some Err.typeError := by
  cases d with
  | nil => exact absurd rfl hne
  | cons e t =>
    obtain ⟨g1, v1⟩ := e
    obtain ⟨pa, hpa⟩ := hall (g1, v1) (List.mem_cons_self _ _)
    simp only [] at hpa
    subst hpa
    rw [plotAttrLoop]
    rfl

/-- C9: assigning `plot_attributes` a dict (by reference) whose entries are
all valid triples mutates the caller's dict in place — afterwards the same
dict object holds `PlotAttributes` objects under the same keys — and the
plotter's `_plot_attributes` field aliases that same dict object; assigning
the same dict object a second time then fails the `list`/`tuple`
`isinstance` check with a type error. -/
theorem c9_plot_attributes_in_place_mutation {G : Type} (iscl : C → Bool)
    (h : Heap G C L) (r : ℕ) (p : PlotterState)
    (hne : h r ≠ [])
    (hall : ∀ e ∈ h r, ∃ pa, processAttr iscl e.2 = Except.ok pa) :
    ∃ h2 p2,
      set_plot_attributes iscl h r p = (h2, p2, none)
        ∧ p2.plot_attributes_ref = some r
        ∧ (h2 r).map Prod.fst = (h r).map Prod.fst
        ∧ (∀ e ∈ h2 r, ∃ pa, e.2 = AttrVal.attrObj pa)
        ∧ (set_plot_attributes iscl h2 r p2).2.2 = some Err.typeError := by
  obtain ⟨hres2, hkeys, hvals⟩ := plotAttrLoop_ok iscl (h r) hall
  have hupd : Function.update h r (plotAttrLoop iscl (h r)).1 r
      = (plotAttrLoop iscl (h r)).1 := Function.update_same r _ h
  have hrun1 : set_plot_attributes iscl h r p
      = (Function.update h r (plotAttrLoop iscl (h r)).1,
          { plot_attributes_ref := some r }, none) := by
    rw [set_plot_attributes]
    simp only [hres2]
  refine ⟨Function.update h r (plotAttrLoop iscl (h r)).1,
    { plot_attributes_ref := some r }, hrun1, rfl, ?_, ?_, ?_⟩
  · rw [hupd, hkeys]
  · rw [hupd]
    exact hvals
  · have hne2 : (plotAttrLoop iscl (h r)).1 ≠ [] := by
      intro h0
      apply hne
      have := congrArg List.length hkeys
      rw [h0] at this
      simp at this
      exact List.length_eq_zero.mp this.symm
    have herr := plotAttrLoop_all_attrObj iscl (plotAttrLoop iscl (h r)).1 hne2 hvals
    rw [set_plot_attributes]
    simp only [hupd, herr]

/-- C9 witness: a one-entry dict holding a valid `(color, alpha, label)`
triple at reference `0`. -/
theorem c9_witness :
    ∃ h2 p2,
      set_plot_attributes (fun b : Bool => b)
          (fun _ => [((0 : ℕ), AttrVal.triple true (PyNum.num 1) "lab")]) 0
          ⟨none⟩
        = (h2, p2, none)
        ∧ p2.plot_attributes_ref = some 0
        ∧ (h2 0).map Prod.fst
            = ((fun _ => [((0 : ℕ), AttrVal.triple true (PyNum.num 1) "lab")] :
                Heap ℕ Bool String) 0).map Prod.fst
        ∧ (∀ e ∈ h2 0, ∃ pa, e.2 = AttrVal.attrObj pa)
        ∧ (set_plot_attributes (fun b : Bool => b) h2 0 p2).2.2
            = some Err.typeError :=
  c9_plot_attributes_in_place_mutation (fun b : Bool => b) _ 0 ⟨none⟩
    (by simp)
    (by
      intro e he
      simp at he
      rw [he]
      exact ⟨⟨true, 1, "lab"⟩, by with_unfolding_all rfl⟩)



theorem run_group_block [LinearOrder V] [Inhabited V]
    (cfg : Config) (attrs : List (V × PlotAttributes C L)) (d : DataFrame V)
    (gcol : String) (order : List String)
    (hg : gcol ∈ d.cols) (ho : ∀ c ∈ order, c ∈ d.cols)
    (hlk : ∀ gd ∈ d.groupby gcol, (lookupAttr attrs gd.1).isSome)
    (g : V) (data : List (Row V)) (hmem : (g, data) ∈ d.groupby gcol) :
    ∃ x1 pa, lookupAttr attrs g = some pa
      ∧ circlesOfGroup (circle_generator cfg attrs (Input.df d) gcol order).run.1 g
          = circleList g data.length
              ((sort_values d.cols order data).zip (groupPs cfg d.cols order data x1))
      ∧ labelsOfGroup (circle_generator cfg attrs (Input.df d) gcol order).run.1 g
          = [labelOf cfg pa.label g data.length (groupPs cfg d.cols order data x1)] := by
  rw [Gen_run_valid cfg attrs d gcol order hg ho]
  obtain ⟨pre, post, x1, pa, hpa, hrun, hc1, hc2, hl1, hl2⟩ :=
    runGroups_decomp cfg attrs d.cols order (d.groupby gcol) cfg.x_init hlk
      (groupby_keys_nodup d gcol) g data hmem (groupby_mem hmem).2
  refine ⟨x1, pa, hpa, ?_, ?_⟩
  · rw [hrun, circlesOfGroup_append, circlesOfGroup_append, hc1,
      circlesOfGroup_label_cons, hc2, groupCircles_group]
    simp
  · rw [hrun, labelsOfGroup_append, labelsOfGroup_append, hl1,
      labelsOfGroup_label_cons, hl2]
    unfold groupCircles
    rw [labelsOfGroup_map_circle]
    simp [labelOf]

/-- C2: within every group, the emitted placements carry the group's records
sorted strictly descending in the ordering key(s): the emitted row sequence is
a permutation of the group's rows, pairwise non-ascending in the lexicographic
key, and stable — records with equal keys keep their original input order
(the filter of the output at any fixed key value equals the filter of the
input). -/
theorem c2_descending_stable_order {V C L : Type} [LinearOrder V] [Inhabited V]
    (cfg : Config) (attrs : List (V × PlotAttributes C L)) (d : DataFrame V)
    (gcol : String) (order : List String)
    (hg : gcol ∈ d.cols) (ho : ∀ c ∈ order, c ∈ d.cols)
    (hlk : ∀ gd ∈ d.groupby gcol, (lookupAttr attrs gd.1).isSome)
    (g : V) (data : List (Row V)) (hmem : (g, data) ∈ d.groupby gcol) :
    List.Perm ((circlesOfGroup
        (circle_generator cfg attrs (Input.df d) gcol order).run.1 g).map
        CircleAttributes.row) data
      ∧ ((circlesOfGroup
          (circle_generator cfg attrs (Input.df d) gcol order).run.1 g).map
          CircleAttributes.row).Pairwise (rowGe d.cols order)
      ∧ ∀ k, ((circlesOfGroup
            (circle_generator cfg attrs (Input.df d) gcol order).run.1 g).map
            CircleAttributes.row).filter (fun r => rowKey d.cols order r = k)
          = data.filter (fun r => rowKey d.cols order r = k) := by
  obtain ⟨x1, pa, hpa, hcirc, hlab⟩ :=
    run_group_block cfg attrs d gcol order hg ho hlk g data hmem
  have hrows : (circlesOfGroup
      (circle_generator cfg attrs (Input.df d) gcol order).run.1 g).map
      CircleAttributes.row = sort_values d.cols order data := by
    rw [hcirc]
    exact circleList_map_row _ _ _ _
      (le_of_eq (by rw [sort_values_length, groupPs_length]))
  rw [hrows]
  exact ⟨sort_values_perm d.cols order data, sort_values_sorted d.cols order data,
    fun k => sort_values_stable d.cols order data k⟩

/-- C2 witness: two groups, interleaved in the input, with a duplicated
ordering key inside the first group exercising the stable tie-break. -/
theorem c2_witness :
    List.Perm ((circlesOfGroup
        (circle_generator (⟨1/5, 0, 1, 10⟩ : Config)
            [((1 : ℚ), (⟨true, 1, "a"⟩ : PlotAttributes Bool String)),
             ((2 : ℚ), (⟨true, 1, "b"⟩ : PlotAttributes Bool String))]
            (Input.df ⟨["g", "v", "w"],
              [[1, 3, 10], [2, 5, 20], [1, 3, 30], [1, 7, 40]]⟩) "g" ["v"]).run.1
          (1 : ℚ)).map CircleAttributes.row)
        [[1, 3, 10], [1, 3, 30], [1, 7, 40]]
      ∧ ((circlesOfGroup
          (circle_generator (⟨1/5, 0, 1, 10⟩ : Config)
              [((1 : ℚ), (⟨true, 1, "a"⟩ : PlotAttributes Bool String)),
               ((2 : ℚ), (⟨true, 1, "b"⟩ : PlotAttributes Bool String))]
              (Input.df ⟨["g", "v", "w"],
                [[1, 3, 10], [2, 5, 20], [1, 3, 30], [1, 7, 40]]⟩) "g" ["v"]).run.1
            (1 : ℚ)).map CircleAttributes.row).Pairwise
          (rowGe ["g", "v", "w"] ["v"])
      ∧ ∀ k, ((circlesOfGroup
            (circle_generator (⟨1/5, 0, 1, 10⟩ : Config)
                [((1 : ℚ), (⟨true, 1, "a"⟩ : PlotAttributes Bool String)),
                 ((2 : ℚ), (⟨true, 1, "b"⟩ : PlotAttributes Bool String))]
                (Input.df ⟨["g", "v", "w"],
                  [[1, 3, 10], [2, 5, 20], [1, 3, 30], [1, 7, 40]]⟩) "g" ["v"]).run.1
              (1 : ℚ)).map CircleAttributes.row).filter
            (fun r => rowKey ["g", "v", "w"] ["v"] r = k)
          = [[1, 3, 10], [1, 3, 30], [1, 7, 40]].filter
              (fun r => rowKey ["g", "v", "w"] ["v"] r = k) :=
  c2_descending_stable_order (⟨1/5, 0, 1, 10⟩ : Config)
    [((1 : ℚ), (⟨true, 1, "a"⟩ : PlotAttributes Bool String)),
     ((2 : ℚ), (⟨true, 1, "b"⟩ : PlotAttributes Bool String))]
    ⟨["g", "v", "w"], [[1, 3, 10], [2, 5, 20], [1, 3, 30], [1, 7, 40]]⟩ "g" ["v"]
    (by decide) (by decide) (by with_unfolding_all decide) 1 [[1, 3, 10], [1, 3, 30], [1, 7, 40]]
    (by with_unfolding_all decide)



/-- C5: for every group of the input, the run's event list contains a
contiguous block of exactly `data.length` circle placements, all carrying
that group, immediately followed by that group's single `GroupLabel`; no
placement or label of the group occurs anywhere else, and the run finishes
without error. -/
theorem c5_one_summary_per_group {V C L : Type} [LinearOrder V] [Inhabited V]
    (cfg : Config) (attrs : List (V × PlotAttributes C L)) (d : DataFrame V)
    (gcol : String) (order : List String)
    (hg : gcol ∈ d.cols) (ho : ∀ c ∈ order, c ∈ d.cols)
    (hlk : ∀ gd ∈ d.groupby gcol, (lookupAttr attrs gd.1).isSome)
    (g : V) (data : List (Row V)) (hmem : (g, data) ∈ d.groupby gcol) :
    ∃ (pre circles : List (Event V L)) (lab : GroupLabel V L) (post : List (Event V L)),
      (circle_generator cfg attrs (Input.df d) gcol order).run.1
          = pre ++ circles ++ Event.label lab :: post
        ∧ circles.length = data.length
        ∧ (∀ e ∈ circles, ∃ c : CircleAttributes V, e = Event.circle c ∧ c.group = g)
        ∧ lab.group_label = g
        ∧ circlesOfGroup pre g = [] ∧ circlesOfGroup post g = []
        ∧ labelsOfGroup pre g = [] ∧ labelsOfGroup post g = []
        ∧ (circle_generator cfg attrs (Input.df d) gcol order).run.2 = none := by
  rw [Gen_run_valid cfg attrs d gcol order hg ho]
  obtain ⟨pre, post, x1, pa, hpa, hrun, hc1, hc2, hl1, hl2⟩ :=
    runGroups_decomp cfg attrs d.cols order (d.groupby gcol) cfg.x_init hlk
      (groupby_keys_nodup d gcol) g data hmem (groupby_mem hmem).2
  refine ⟨pre, groupCircles cfg d.cols order g data x1,
    labelOf cfg pa.label g data.length (groupPs cfg d.cols order data x1), post,
    hrun, ?_, ?_, rfl, hc1, hc2, hl1, hl2,
    runGroups_err_none cfg attrs d.cols order (d.groupby gcol) cfg.x_init hlk⟩
  · rw [groupCircles, List.length_map, blockLen]
  · intro e he
    rw [groupCircles] at he
    obtain ⟨c, hc, heq⟩ := List.mem_map.mp he
    exact ⟨c, heq.symm, circleList_group g data.length _ c hc⟩

/-- C5 witness: one group of three records with two circles per column. -/
theorem c5_witness :
    ∃ (pre circles : List (Event ℚ String)) (lab : GroupLabel ℚ String)
      (post : List (Event ℚ String)),
      (circle_generator (⟨1/5, 0, 1, 2⟩ : Config)
          [((1 : ℚ), (⟨true, 1, "a"⟩ : PlotAttributes Bool String))]
          (Input.df ⟨["g", "v"], [[1, 5], [1, 6], [1, 7]]⟩) "g" ["v"]).run.1
          = pre ++ circles ++ Event.label lab :: post
        ∧ circles.length = ([[1, 5], [1, 6], [1, 7]] : List (Row ℚ)).length
        ∧ (∀ e ∈ circles, ∃ c : CircleAttributes ℚ, e = Event.circle c ∧ c.group = 1)
        ∧ lab.group_label = 1
        ∧ circlesOfGroup pre 1 = [] ∧ circlesOfGroup post 1 = []
        ∧ labelsOfGroup pre 1 = [] ∧ labelsOfGroup post 1 = []
        ∧ (circle_generator (⟨1/5, 0, 1, 2⟩ : Config)
            [((1 : ℚ), (⟨true, 1, "a"⟩ : PlotAttributes Bool String))]
            (Input.df ⟨["g", "v"], [[1, 5], [1, 6], [1, 7]]⟩) "g" ["v"]).run.2 = none :=
  c5_one_summary_per_group (⟨1/5, 0, 1, 2⟩ : Config)
    [((1 : ℚ), (⟨true, 1, "a"⟩ : PlotAttributes Bool String))]
    ⟨["g", "v"], [[1, 5], [1, 6], [1, 7]]⟩ "g" ["v"]
    (by decide) (by decide) (by with_unfolding_all decide)
    1 [[1, 5], [1, 6], [1, 7]] (by with_unfolding_all decide)

theorem max'_eq_unbot' (s : Finset ℚ) (h : s.Nonempty) :
    s.max' h = s.max.unbot' 0 := by
  rw [← Finset.coe_max' h, WithBot.unbot'_coe]

/-- C6: each group's emitted summary has `label_x` equal to the mean of the
distinct x-values of the group's placements (each distinct value counted
once) and `gridline_x` equal to the maximum x-value of the group's placements
plus `2*radius + pad`. -/
theorem c6_summary_formulas {V C L : Type} [LinearOrder V] [Inhabited V]
    (cfg : Config) (attrs : List (V × PlotAttributes C L)) (d : DataFrame V)
    (gcol : String) (order : List String)
    (hg : gcol ∈ d.cols) (ho : ∀ c ∈ order, c ∈ d.cols)
    (hlk : ∀ gd ∈ d.groupby gcol, (lookupAttr attrs gd.1).isSome)
    (g : V) (data : List (Row V)) (hmem : (g, data) ∈ d.groupby gcol) :
    ∃ lab : GroupLabel V L,
      labelsOfGroup (circle_generator cfg attrs (Input.df d) gcol order).run.1 g = [lab]
        ∧ lab.label_x
            = (((circlesOfGroup (circle_generator cfg attrs (Input.df d) gcol
                  order).run.1 g).map CircleAttributes.x).toFinset.sum id)
              / ((((circlesOfGroup (circle_generator cfg attrs (Input.df d) gcol
                  order).run.1 g).map CircleAttributes.x).toFinset.card : ℚ))
        ∧ ∃ hne : (((circlesOfGroup (circle_generator cfg attrs (Input.df d) gcol
              order).run.1 g).map CircleAttributes.x).toFinset).Nonempty,
            lab.gridline_x
              = (((circlesOfGroup (circle_generator cfg attrs (Input.df d) gcol
                    order).run.1 g).map CircleAttributes.x).toFinset).max' hne
                + (2 * cfg.radius + cfg.pad) := by
  obtain ⟨x1, pa, hpa, hcirc, hlab⟩ :=
    run_group_block cfg attrs d gcol order hg ho hlk g data hmem
  have hxs : (circlesOfGroup (circle_generator cfg attrs (Input.df d) gcol
      order).run.1 g).map CircleAttributes.x
      = (groupPs cfg d.cols order data x1).map Prod.fst := by
    rw [hcirc]
    exact circleList_map_x _ _ _ _
      (le_of_eq (by rw [sort_values_length, groupPs_length]))
  have hne : (((circlesOfGroup (circle_generator cfg attrs (Input.df d) gcol
      order).run.1 g).map CircleAttributes.x).toFinset).Nonempty := by
    rw [hxs]
    have hd := (groupby_mem hmem).2
    have hlen : ((groupPs cfg d.cols order data x1).map Prod.fst).length = data.length := by
      rw [List.length_map, groupPs_length]
    have hne2 : (groupPs cfg d.cols order data x1).map Prod.fst ≠ [] := by
      intro h0
      rw [h0] at hlen
      simp at hlen
      exact hd (List.length_eq_zero.mp hlen.symm)
    obtain ⟨a, ha⟩ := List.exists_mem_of_ne_nil _ hne2
    exact ⟨a, List.mem_toFinset.mpr ha⟩
  refine ⟨labelOf cfg pa.label g data.length (groupPs cfg d.cols order data x1),
    hlab, ?_, hne, ?_⟩
  · rw [hxs]
    rfl
  · have hfin : (((circlesOfGroup (circle_generator cfg attrs (Input.df d) gcol
        order).run.1 g).map CircleAttributes.x).toFinset)
        = ((groupPs cfg d.cols order data x1).map Prod.fst).toFinset := by
      rw [hxs]
    rw [labelOf]
    simp only []
    rw [max'_eq_unbot' _ hne, hfin, Config.group_pad, Config.pad]

/-- C6 witness: one group of two records with one circle per column, so the
group uses two distinct x-values. -/
theorem c6_witness :
    ∃ lab : GroupLabel ℚ String,
      labelsOfGroup (circle_generator (⟨1/2, 0, 1, 1⟩ : Config)
          [((7 : ℚ), (⟨true, 1, "s"⟩ : PlotAttributes Bool String))]
          (Input.df ⟨["g", "v"], [[7, 1], [7, 2]]⟩) "g" ["v"]).run.1 7 = [lab]
        ∧ lab.label_x
            = (((circlesOfGroup (circle_generator (⟨1/2, 0, 1, 1⟩ : Config)
                  [((7 : ℚ), (⟨true, 1, "s"⟩ : PlotAttributes Bool String))]
                  (Input.df ⟨["g", "v"], [[7, 1], [7, 2]]⟩) "g"
                  ["v"]).run.1 7).map CircleAttributes.x).toFinset.sum id)
              / ((((circlesOfGroup (circle_generator (⟨1/2, 0, 1, 1⟩ : Config)
                  [((7 : ℚ), (⟨true, 1, "s"⟩ : PlotAttributes Bool String))]
                  (Input.df ⟨["g", "v"], [[7, 1], [7, 2]]⟩) "g"
                  ["v"]).run.1 7).map CircleAttributes.x).toFinset.card : ℚ))
        ∧ ∃ hne : (((circlesOfGroup (circle_generator (⟨1/2, 0, 1, 1⟩ : Config)
              [((7 : ℚ), (⟨true, 1, "s"⟩ : PlotAttributes Bool String))]
              (Input.df ⟨["g", "v"], [[7, 1], [7, 2]]⟩) "g"
              ["v"]).run.1 7).map CircleAttributes.x).toFinset).Nonempty,
            lab.gridline_x
              = (((circlesOfGroup (circle_generator (⟨1/2, 0, 1, 1⟩ : Config)
                    [((7 : ℚ), (⟨true, 1, "s"⟩ : PlotAttributes Bool String))]
                    (Input.df ⟨["g", "v"], [[7, 1], [7, 2]]⟩) "g"
                    ["v"]).run.1 7).map CircleAttributes.x).toFinset).max' hne
                + (2 * (1/2 : ℚ) + Config.pad ⟨1/2, 0, 1, 1⟩) :=
  c6_summary_formulas (⟨1/2, 0, 1, 1⟩ : Config)
    [((7 : ℚ), (⟨true, 1, "s"⟩ : PlotAttributes Bool String))]
    ⟨["g", "v"], [[7, 1], [7, 2]]⟩ "g" ["v"]
    (by decide) (by decide) (by with_unfolding_all decide)
    7 [[7, 1], [7, 2]] (by with_unfolding_all decide)



theorem columnStep_snd_of_mod (cfg : Config) (i : ℕ) (x y : ℚ)
    (h : i % cfg.circles_per_column = 0) : (columnStep cfg i x y).2 = cfg.y_init := by
  rw [columnStep, if_pos h]

theorem columnStep_of_mod_ne (cfg : Config) (i : ℕ) (x y : ℚ)
    (h : i % cfg.circles_per_column ≠ 0) :
    columnStep cfg i x y = (x, y + cfg.circle_pad) := by
  rw [columnStep, if_neg h]

theorem columnStep_fst_of_mod_pos (cfg : Config) (i : ℕ) (x y : ℚ)
    (h : i % cfg.circles_per_column = 0) (hi : i ≠ 0) :
    (columnStep cfg i x y).1 = x + cfg.circle_pad := by
  rw [columnStep, if_pos h]
  simp [hi]

theorem extract_ps_getElem [LinearOrder V] [Inhabited V] {cfg : Config}
    {cols order : List String} {g : V} {data : List (Row V)} {x1 : ℚ}
    {cs : List (CircleAttributes V)}
    (hcs : cs = circleList g data.length
      ((sort_values cols order data).zip (groupPs cfg cols order data x1)))
    {j : ℕ} {p : CircleAttributes V} (hp : cs[j]? = some p) :
    ∃ pv, (groupPs cfg cols order data x1)[j]? = some pv
      ∧ p.x = pv.1 ∧ p.y = pv.2 := by
  subst hcs
  rw [circleList, List.getElem?_map] at hp
  obtain ⟨z, hz, hmk⟩ := Option.map_eq_some'.mp hp
  rw [List.zip] at hz
  obtain ⟨a, pv, ha, hpv, hz2⟩ := List.getElem?_zipWith_eq_some.mp hz
  refine ⟨pv, hpv, ?_, ?_⟩ <;> rw [← hmk, ← hz2]

theorem groupPs_getElem_prev [LinearOrder V] [Inhabited V] {cfg : Config}
    {cols order : List String} {data : List (Row V)} {x1 : ℚ}
    {j : ℕ} {pv : ℚ × ℚ}
    (hj : (groupPs cfg cols order data x1)[j + 1]? = some pv) :
    ∃ pu, (groupPs cfg cols order data x1)[j]? = some pu
      ∧ pv = columnStep cfg (j + 1) pu.1 pu.2 := by
  obtain ⟨hlt, _⟩ := List.getElem?_eq_some_iff.mp hj
  have hlt2 : j < (groupPs cfg cols order data x1).length := Nat.lt_of_succ_lt hlt
  refine ⟨(groupPs cfg cols order data x1)[j], List.getElem?_eq_getElem hlt2, ?_⟩
  have hstep := placePositions_step cfg (sort_values cols order data) 0 x1 cfg.y_init
    j ((groupPs cfg cols order data x1)[j]) pv
    (by rw [← groupPs]; exact List.getElem?_eq_getElem hlt2)
    (by rw [← groupPs]; exact hj)
  simpa using hstep

/-- C7: within one column of one group, consecutive placements have
y-coordinates that differ by exactly `3*radius` (each record after the first
of a column sits `3*radius` below its predecessor), and every record that
starts a new column is placed at `y = y_init`. -/
theorem c7_column_y_layout {V C L : Type} [LinearOrder V] [Inhabited V]
    (cfg : Config) (attrs : List (V × PlotAttributes C L)) (d : DataFrame V)
    (gcol : String) (order : List String)
    (hg : gcol ∈ d.cols) (ho : ∀ c ∈ order, c ∈ d.cols)
    (g : V) (data : List (Row V)) (hmem : (g, data) ∈ d.groupby gcol) :
    ∀ j : ℕ,
      (∀ p : CircleAttributes V,
        (circlesOfGroup (circle_generator cfg attrs (Input.df d) gcol
            order).run.1 g)[j]? = some p →
        j % cfg.circles_per_column = 0 → p.y = cfg.y_init)
      ∧ (∀ p q : CircleAttributes V,
          (circlesOfGroup (circle_generator cfg attrs (Input.df d) gcol
              order).run.1 g)[j]? = some p →
          (circlesOfGroup (circle_generator cfg attrs (Input.df d) gcol
              order).run.1 g)[j + 1]? = some q →
          (j + 1) % cfg.circles_per_column ≠ 0 → q.y = p.y + 3 * cfg.radius) := by
  rw [Gen_run_valid cfg attrs d gcol order hg ho]
  rcases runGroups_circles_extract cfg attrs d.cols order (d.groupby gcol)
      cfg.x_init (groupby_keys_nodup d gcol) g data hmem with hempty | ⟨x1, hcs⟩
  · intro j
    constructor
    · intro p hp
      rw [hempty] at hp
      simp at hp
    · intro p q hp
      rw [hempty] at hp
      simp at hp
  · intro j
    constructor
    · intro p hp hmod
      obtain ⟨pv, hpv, hpx, hpy⟩ := extract_ps_getElem hcs hp
      cases j with
      | zero =>
        have h0 := placePositions_head cfg (sort_values d.cols order data) 0 x1
          cfg.y_init pv (by rw [← groupPs]; exact hpv)
        rw [hpy, h0, columnStep_zero]
      | succ k =>
        obtain ⟨pu, _, hstep⟩ := groupPs_getElem_prev hpv
        rw [hpy, hstep, columnStep_snd_of_mod cfg _ _ _ hmod]
    · intro p q hp hq hmod
      obtain ⟨pv, hpv, hpx, hpy⟩ := extract_ps_getElem hcs hp
      obtain ⟨qv, hqv, hqx, hqy⟩ := extract_ps_getElem hcs hq
      obtain ⟨pu, hpu, hstep⟩ := groupPs_getElem_prev hqv
      have hpp : pu = pv := by
        rw [hpu] at hpv
        exact Option.some_inj.mp hpv
      subst hpp
      rw [hqy, hstep, columnStep_of_mod_ne cfg _ _ _ hmod]
      rw [hpy]
      rw [Config.circle_pad]

/-- C7 witness: one group of three records with two circles per column, read
at the first two placements: the first is at `y_init` and the second is
`3*radius` below it. -/
theorem c7_witness :
    (∀ p : CircleAttributes ℚ,
      (circlesOfGroup (circle_generator (⟨1/4, 0, 1, 2⟩ : Config)
          [((5 : ℚ), (⟨true, 1, "w"⟩ : PlotAttributes Bool String))]
          (Input.df ⟨["g", "v"], [[5, 1], [5, 2], [5, 3]]⟩) "g"
          ["v"]).run.1 5)[0]? = some p →
      0 % 2 = 0 → p.y = 1)
    ∧ (∀ p q : CircleAttributes ℚ,
        (circlesOfGroup (circle_generator (⟨1/4, 0, 1, 2⟩ : Config)
            [((5 : ℚ), (⟨true, 1, "w"⟩ : PlotAttributes Bool String))]
            (Input.df ⟨["g", "v"], [[5, 1], [5, 2], [5, 3]]⟩) "g"
            ["v"]).run.1 5)[0]? = some p →
        (circlesOfGroup (circle_generator (⟨1/4, 0, 1, 2⟩ : Config)
            [((5 : ℚ), (⟨true, 1, "w"⟩ : PlotAttributes Bool String))]
            (Input.df ⟨["g", "v"], [[5, 1], [5, 2], [5, 3]]⟩) "g"
            ["v"]).run.1 5)[0 + 1]? = some q →
        (0 + 1) % 2 ≠ 0 → q.y = p.y + 3 * (1/4)) :=
  c7_column_y_layout (⟨1/4, 0, 1, 2⟩ : Config)
    [((5 : ℚ), (⟨true, 1, "w"⟩ : PlotAttributes Bool String))]
    ⟨["g", "v"], [[5, 1], [5, 2], [5, 3]]⟩ "g" ["v"]
    (by decide) (by decide) 5 [[5, 1], [5, 2], [5, 3]]
    (by with_unfolding_all decide) 0

/-- C4: across one run, the x-coordinates of successive placements are
monotonically non-decreasing; adjacent placements of different groups have
strictly increasing x (group boundary), and inside a group x strictly
increases exactly at column starts (`(j+1) mod circles_per_column = 0`) and
is unchanged otherwise. -/
theorem c4_x_monotone {V C L : Type} [LinearOrder V] [Inhabited V]
    (cfg : Config) (attrs : List (V × PlotAttributes C L)) (d : DataFrame V)
    (gcol : String) (order : List String)
    (hv : cfg.Valid) (hg : gcol ∈ d.cols) (ho : ∀ c ∈ order, c ∈ d.cols) :
    List.Chain' (· ≤ ·)
      ((circleEvents (circle_generator cfg attrs (Input.df d) gcol
        order).run.1).map CircleAttributes.x)
    ∧ (∀ (j : ℕ) (p q : CircleAttributes V),
        (circleEvents (circle_generator cfg attrs (Input.df d) gcol
            order).run.1)[j]? = some p →
        (circleEvents (circle_generator cfg attrs (Input.df d) gcol
            order).run.1)[j + 1]? = some q →
        p.group ≠ q.group → p.x < q.x)
    ∧ (∀ (g : V) (data : List (Row V)), (g, data) ∈ d.groupby gcol →
        ∀ (j : ℕ) (p q : CircleAttributes V),
          (circlesOfGroup (circle_generator cfg attrs (Input.df d) gcol
              order).run.1 g)[j]? = some p →
          (circlesOfGroup (circle_generator cfg attrs (Input.df d) gcol
              order).run.1 g)[j + 1]? = some q →
          ((j + 1) % cfg.circles_per_column = 0 → p.x < q.x)
            ∧ ((j + 1) % cfg.circles_per_column ≠ 0 → q.x = p.x)) := by
  rw [Gen_run_valid cfg attrs d gcol order hg ho]
  refine ⟨?_, ?_, ?_⟩
  · have hch := runGroups_chain cfg attrs d.cols order (le_of_lt hv.1)
      (d.groupby gcol) cfg.x_init
    exact hch.tail
  · intro j p q hp hq hne
    exact runGroups_group_boundary cfg attrs d.cols order hv.1
      (d.groupby gcol) cfg.x_init j p q hp hq hne
  · intro g data hmem j p q hp hq
    rcases runGroups_circles_extract cfg attrs d.cols order (d.groupby gcol)
        cfg.x_init (groupby_keys_nodup d gcol) g data hmem with hempty | ⟨x1, hcs⟩
    · rw [hempty] at hp
      simp at hp
    · obtain ⟨pv, hpv, hpx, hpy⟩ := extract_ps_getElem hcs hp
      obtain ⟨qv, hqv, hqx, hqy⟩ := extract_ps_getElem hcs hq
      obtain ⟨pu, hpu, hstep⟩ := groupPs_getElem_prev hqv
      have hpp : pu = pv := by
        rw [hpu] at hpv
        exact Option.some_inj.mp hpv
      subst hpp
      constructor
      · intro hmod
        rw [hqx, hstep, columnStep_fst_of_mod_pos cfg _ _ _ hmod (Nat.succ_ne_zero j)]
        have hcp := circle_pad_pos cfg hv.1
        rw [hpx]
        linarith
      · intro hmod
        rw [hqx, hstep, columnStep_of_mod_ne cfg _ _ _ hmod, hpx]

/-- C4 witness: two groups of two records each with one circle per column:
every adjacent pair of placements crosses a column or group boundary, and x
increases throughout. -/
theorem c4_witness :
    List.Chain' (· ≤ ·)
      ((circleEvents (circle_generator (⟨1/3, 0, 1, 1⟩ : Config)
        [((1 : ℚ), (⟨true, 1, "p"⟩ : PlotAttributes Bool String)),
         ((2 : ℚ), (⟨true, 1, "q"⟩ : PlotAttributes Bool String))]
        (Input.df ⟨["g", "v"], [[1, 1], [1, 2], [2, 1], [2, 2]]⟩) "g"
        ["v"]).run.1).map CircleAttributes.x)
    ∧ (∀ (j : ℕ) (p q : CircleAttributes ℚ),
        (circleEvents (circle_generator (⟨1/3, 0, 1, 1⟩ : Config)
            [((1 : ℚ), (⟨true, 1, "p"⟩ : PlotAttributes Bool String)),
             ((2 : ℚ), (⟨true, 1, "q"⟩ : PlotAttributes Bool String))]
            (Input.df ⟨["g", "v"], [[1, 1], [1, 2], [2, 1], [2, 2]]⟩) "g"
            ["v"]).run.1)[j]? = some p →
        (circleEvents (circle_generator (⟨1/3, 0, 1, 1⟩ : Config)
            [((1 : ℚ), (⟨true, 1, "p"⟩ : PlotAttributes Bool String)),
             ((2 : ℚ), (⟨true, 1, "q"⟩ : PlotAttributes Bool String))]
            (Input.df ⟨["g", "v"], [[1, 1], [1, 2], [2, 1], [2, 2]]⟩) "g"
            ["v"]).run.1)[j + 1]? = some q →
        p.group ≠ q.group → p.x < q.x)
    ∧ (∀ (g : ℚ) (data : List (Row ℚ)),
        (g, data) ∈ (⟨["g", "v"], [[1, 1], [1, 2], [2, 1], [2, 2]]⟩ :
          DataFrame ℚ).groupby "g" →
        ∀ (j : ℕ) (p q : CircleAttributes ℚ),
          (circlesOfGroup (circle_generator (⟨1/3, 0, 1, 1⟩ : Config)
              [((1 : ℚ), (⟨true, 1, "p"⟩ : PlotAttributes Bool String)),
               ((2 : ℚ), (⟨true, 1, "q"⟩ : PlotAttributes Bool String))]
              (Input.df ⟨["g", "v"], [[1, 1], [1, 2], [2, 1], [2, 2]]⟩) "g"
              ["v"]).run.1 g)[j]? = some p →
          (circlesOfGroup (circle_generator (⟨1/3, 0, 1, 1⟩ : Config)
              [((1 : ℚ), (⟨true, 1, "p"⟩ : PlotAttributes Bool String)),
               ((2 : ℚ), (⟨true, 1, "q"⟩ : PlotAttributes Bool String))]
              (Input.df ⟨["g", "v"], [[1, 1], [1, 2], [2, 1], [2, 2]]⟩) "g"
              ["v"]).run.1 g)[j + 1]? = some q →
          ((j + 1) % 1 = 0 → p.x < q.x) ∧ ((j + 1) % 1 ≠ 0 → q.x = p.x)) :=
  c4_x_monotone (⟨1/3, 0, 1, 1⟩ : Config)
    [((1 : ℚ), (⟨true, 1, "p"⟩ : PlotAttributes Bool String)),
     ((2 : ℚ), (⟨true, 1, "q"⟩ : PlotAttributes Bool String))]
    ⟨["g", "v"], [[1, 1], [1, 2], [2, 1], [2, 2]]⟩ "g" ["v"]
    (by constructor <;> norm_num) (by decide) (by decide)

end CirclePlot
